import Mathlib

/-!
# O,No game server — verification of the match and presence engines

Shallow embedding of the match engine (`src/server.js`, class `GameRoom`) and
the presence engine (`src/public/js/playerPresence.js`, class
`PlayerPresenceManager`), with theorems checking the natural-language
specification against the code.

Modelling conventions:
* JS arrays holding the deck, the discard pile and the hands are modelled as
  `List`s in the same order (array index 0 = list head); `Array.prototype.pop`
  and `push` therefore act at the *end* of the list (`getLast?` / `dropLast` /
  `++ [c]`).
* `Math.random()`-driven shuffling is made deterministic by threading an
  explicit stream `js : List Nat` of random choices; entry `k` stands for the
  value `Math.floor(Math.random() * (i + 1))` drawn at loop step `k` and is
  reduced `% (i + 1)`, the range that expression produces.
* The error strings returned by the engine are modelled by the enum `Err`
  (one constructor per distinct string).
* Fields of `GameRoom` that the engine logic never reads (`roomId`,
  `gameStarted`) are omitted.  `currentColor` / `currentValue` are `null` in
  JS only between the constructor and `dealCards`, a window in which no game
  operation runs; they are modelled as total fields, with `dealCards`
  overwriting the constructor's placeholder.
-/

/-- Card colors as used by `createDeck`. -/
inductive CColor
  | red | blue | green | yellow | wild
deriving DecidableEq, Repr

/-- Card kinds (`type` field): `'number'`, `'action'`, `'wild'`. -/
inductive CType
  | number | action | wild
deriving DecidableEq, Repr

/-- Card values as they appear in `createDeck`: `"0"`..`"9"`, `"Skip"`,
`"Reverse"`, `"+2"`, `"Wild"`, `"Wild+4"`, `"+12"`. -/
inductive CValue
  | num (n : Nat)
  | skip
  | reverse
  | plus2
  | wild
  | wildPlus4
  | plus12
deriving DecidableEq, Repr

/-- A card: `{ color, value, type }`. -/
structure Card where
  color : CColor
  value : CValue
  type : CType
deriving DecidableEq, Repr

/-- A match participant as stored in `GameRoom.players`:
`{ id, name, hand, calledUno }`. Socket ids are modelled as `Nat`. -/
structure Player where
  id : Nat
  name : String
  hand : List Card
  calledUno : Bool
deriving DecidableEq, Repr

instance : Inhabited Player := ⟨{ id := 0, name := "", hand := [], calledUno := false }⟩

/-- The ruleset flags the engine reads from the free-form `settings` object. -/
structure Settings where
  allowStacking : Bool
  allowJumpIn : Bool
  allowSpecial07 : Bool
  allowPlus12 : Bool
deriving DecidableEq, Repr

/-- The `_lastSwapEvent` payload built by the `'0'` card effect. -/
structure SwapEvent where
  swapperName : String
  targetName : String
  eventType : String
  unoTransfer : Option String
deriving DecidableEq, Repr

/-- The state of one `GameRoom`. -/
structure GameRoom where
  players : List Player
  deck : List Card
  discardPile : List Card
  currentPlayer : Nat
  currentColor : CColor
  currentValue : CValue
  direction : Int
  stackedDrawCount : Nat
  hasDrawnThisTurn : Bool
  settings : Settings
  pendingSwap7 : Option Nat
  lastSwapEvent : Option SwapEvent
deriving DecidableEq, Repr

/-- The error strings returned by the engine, one constructor per string. -/
inductive Err
  | playerNotFound   -- "Player not found"
  | invalidCard      -- "Invalid card"
  | notYourTurn      -- "Not your turn"
  | cantPlay         -- "Can't play that card"
  | noSwapPending    -- "No swap pending"
  | notYourSwap      -- "Not your swap"
  | selfSwap         -- "Cannot swap with yourself"
  | drawOncePerTurn  -- "You can only draw once per turn"
  | unoNeedOneCard   -- "Can only call O,No when you have 1 card"
  | noViolation      -- "No O,no violation detected"
deriving DecidableEq, Repr

/-- `Array.prototype.findIndex`, with `none` for `-1`. -/
def findIndex {α : Type} (p : α → Bool) : List α → Option Nat
  | [] => none
  | a :: as => if p a then some 0 else (findIndex p as).map (· + 1)

/- ── DeckEngine ──────────────────────────────────────────────────────── -/

/-- The nine non-zero number values pushed per inner loop. -/
def numberCards (c : CColor) : List Card :=
  (List.range 9).map fun n => { color := c, value := CValue.num (n + 1), type := CType.number }

/-- The three action values `Skip`, `Reverse`, `+2`. -/
def actionCards (c : CColor) : List Card :=
  [ { color := c, value := CValue.skip, type := CType.action },
    { color := c, value := CValue.reverse, type := CType.action },
    { color := c, value := CValue.plus2, type := CType.action } ]

/-- One color's block of `createDeck`: a single `0`, then two rounds of the
numbers `1`..`9` followed by the three actions. -/
def colorBlock (c : CColor) : List Card :=
  { color := c, value := CValue.num 0, type := CType.number } ::
    (numberCards c ++ actionCards c ++ numberCards c ++ actionCards c)

/-- The eight wild cards pushed after the color blocks. -/
def wildBlock : List Card :=
  (List.range 4).flatMap fun _ =>
    [ { color := CColor.wild, value := CValue.wild, type := CType.wild },
      { color := CColor.wild, value := CValue.wildPlus4, type := CType.wild } ]

/-- The unshuffled deck `createDeck` builds (108 cards, 110 with `+12`s). -/
def buildDeck (allowPlus12 : Bool) : List Card :=
  (([CColor.red, CColor.blue, CColor.green, CColor.yellow].flatMap colorBlock) ++ wildBlock) ++
    (if allowPlus12 then
      [ { color := CColor.wild, value := CValue.plus12, type := CType.wild },
        { color := CColor.wild, value := CValue.plus12, type := CType.wild } ]
     else [])

/-- Swap the array entries at positions `i` and `j` (both in range in every
call `shuffleDeck` makes). -/
def swapAt (l : List Card) (i j : Nat) : List Card :=
  match l.get? i, l.get? j with
  | some a, some b => (l.set i b).set j a
  | _, _ => l

/-- The Fisher–Yates loop of `shuffleDeck`: `for (i = len-1; i > 0; i--)`,
swapping position `i` with a random position `j ≤ i` drawn from `js`. -/
def fyLoop : List Card → Nat → List Nat → List Card
  | l, 0, _ => l
  | l, i + 1, js => fyLoop (swapAt l (i + 1) (js.headD 0 % (i + 2))) i js.tail

/-- `shuffleDeck`, deterministic in the random stream `js`. -/
def shuffleDeck (js : List Nat) (l : List Card) : List Card :=
  fyLoop l (l.length - 1) js

/-- `GameRoom.createDeck`: build the fixed composition and shuffle it. -/
def GameRoom.createDeck (s : GameRoom) (js : List Nat) : GameRoom :=
  { s with deck := shuffleDeck js (buildDeck s.settings.allowPlus12) }

/-- Pop `n` cards off the top of the deck (`deck.pop()` in a loop), in pop
order; `none` when the deck runs out (JS would push `undefined`). -/
def popN : Nat → List Card → Option (List Card × List Card)
  | 0, deck => some ([], deck)
  | n + 1, deck =>
    match deck.getLast? with
    | none => none
    | some c => (popN n deck.dropLast).map fun r => (c :: r.1, r.2)

/-- The starter-selection loop of `dealCards`:
`do { start = deck.pop() } while (start.type !== 'number')`, popping at most
`fuel` times (the caller passes the deck length, which the loop can never
exceed since every iteration pops a card).  The popped non-number cards are
dropped on the floor; `none` if the deck runs out (JS would throw on
`undefined.type`). -/
def findStarterFuel : Nat → List Card → Option (Card × List Card)
  | 0, _ => none
  | fuel + 1, l =>
    match l.getLast? with
    | none => none
    | some c =>
      if c.type = CType.number then some (c, l.dropLast)
      else findStarterFuel fuel l.dropLast

/-- The starter-selection loop, with its maximal iteration count. -/
def findStarter (l : List Card) : Option (Card × List Card) :=
  findStarterFuel l.length l

/-- Deal `count` cards to each player in order (`p.hand = []` then `count`
pops). -/
def dealAll (count : Nat) : List Player → List Card → Option (List Player × List Card)
  | [], deck => some ([], deck)
  | p :: ps, deck =>
    match popN count deck with
    | none => none
    | some (h, deck1) =>
      (dealAll count ps deck1).map fun r => ({ p with hand := h } :: r.1, r.2)

/-- `GameRoom.dealCards`: deal every hand, then select the starter and set
the active color/value from it. -/
def GameRoom.dealCards (s : GameRoom) (count : Nat) : Option GameRoom :=
  match dealAll count s.players s.deck with
  | none => none
  | some (ps, deck1) =>
    match findStarter deck1 with
    | none => none
    | some (start, deck2) =>
      some { s with players := ps, deck := deck2, discardPile := [start],
                    currentColor := start.color, currentValue := start.value }

/-- The `GameRoom` constructor (players mapped to empty hands, all flags at
their initial values). -/
def mkRoom (ps : List (Nat × String)) (settings : Settings) : GameRoom :=
  { players := ps.map fun p => { id := p.1, name := p.2, hand := [], calledUno := false },
    deck := [], discardPile := [], currentPlayer := 0,
    currentColor := CColor.red, currentValue := CValue.num 0,
    direction := 1, stackedDrawCount := 0, hasDrawnThisTurn := false,
    settings := settings, pendingSwap7 := none, lastSwapEvent := none }

/-- Match setup as the server performs it: constructor, `createDeck()`,
`dealCards(count)`. -/
def initRoom (ps : List (Nat × String)) (settings : Settings) (js : List Nat)
    (count : Nat) : Option GameRoom :=
  ((mkRoom ps settings).createDeck js).dealCards count

/- ── Match Engine: legality and turn state machine ───────────────────── -/

/-- `canPlayCard(card)` (the JS `!card` guard is vacuous here: every caller
has already resolved a real card). -/
def GameRoom.canPlayCard (s : GameRoom) (card : Card) : Bool :=
  if s.settings.allowStacking && decide (0 < s.stackedDrawCount) then
    (s.currentValue == CValue.plus2 && card.value == CValue.plus2) ||
    (s.currentValue == CValue.wildPlus4 && card.value == CValue.wildPlus4)
  else
    card.type == CType.wild || card.color == s.currentColor || card.value == s.currentValue

/-- `getNextPlayerIndex(fromIndex = null)`:
`(index + direction + players.length) % players.length`. -/
def GameRoom.getNextPlayerIndex (s : GameRoom) (fromIndex : Option Nat) : Nat :=
  (((fromIndex.getD s.currentPlayer : Nat) + s.direction + s.players.length) %
    (s.players.length : Int)).toNat

/-- `advanceTurn()`. -/
def GameRoom.advanceTurn (s : GameRoom) : GameRoom :=
  { s with currentPlayer := s.getNextPlayerIndex none, hasDrawnThisTurn := false }

/-- `skipNextPlayer()`. -/
def GameRoom.skipNextPlayer (s : GameRoom) : GameRoom :=
  s.advanceTurn.advanceTurn

/-- `swapHands(a, b)`: both hands are read, then both are written. -/
def GameRoom.swapHands (s : GameRoom) (a b : Nat) : GameRoom :=
  let pa := s.players.getD a default
  let pb := s.players.getD b default
  { s with players := (s.players.set a { pa with hand := pb.hand }).set b
                        { pb with hand := pa.hand } }

/-- `reshuffleDeck()`: no-op when the discard pile has at most one card;
otherwise the retained top card becomes the whole discard pile and the rest
(replacing the deck) are reshuffled.  Note the JS *overwrites* `this.deck`
with the former discard pile; at its only call site the deck is empty. -/
def GameRoom.reshuffleDeck (s : GameRoom) (js : List Nat) : GameRoom :=
  if s.discardPile.length ≤ 1 then s
  else
    match s.discardPile.getLast? with
    | none => s
    | some top =>
      { s with deck := shuffleDeck js s.discardPile.dropLast, discardPile := [top] }

/-- One iteration of the `drawCards(playerIndex, count)` loop: reshuffle if
the deck is empty, then draw one card if any is available. -/
def GameRoom.drawOne (s : GameRoom) (playerIndex : Nat) (js : List Nat) : GameRoom :=
  let s1 := if s.deck.length = 0 then s.reshuffleDeck js else s
  match s1.deck.getLast? with
  | none => s1
  | some c =>
    let p := s1.players.getD playerIndex default
    { s1 with deck := s1.deck.dropLast,
              players := s1.players.set playerIndex { p with hand := p.hand ++ [c] } }

/-- `drawCards(playerIndex, count)`: the loop body `drawOne`, `count` times. -/
def GameRoom.drawCards : GameRoom → Nat → Nat → List Nat → GameRoom
  | s, _, 0, _ => s
  | s, playerIndex, n + 1, js => (s.drawOne playerIndex js).drawCards playerIndex n js

/-- `checkUnoAfterPlay(playerIndex)`: clear the flag unless the hand has
exactly one card. -/
def GameRoom.checkUnoAfterPlay (s : GameRoom) (playerIndex : Nat) : GameRoom :=
  let p := s.players.getD playerIndex default
  if p.hand.length ≠ 1 then
    { s with players := s.players.set playerIndex { p with calledUno := false } }
  else s

/-- The body of the `case '0'` effect when `allowSpecial07` is set, before
the final `advanceTurn()`: swap the two hands, clear both declare flags, and
record `_lastSwapEvent` (with `unoTransfer` naming whichever of the two
post-swap hands has exactly one card, the target first). -/
def GameRoom.zeroSwapState (s : GameRoom) (playerIndex nextIdx : Nat) : GameRoom :=
  let s1 := s.swapHands playerIndex nextIdx
  let pa := s1.players.getD playerIndex default
  let pb := s1.players.getD nextIdx default
  let s2 := { s1 with
    players := (s1.players.set playerIndex { pa with calledUno := false }).set nextIdx
                 { pb with calledUno := false } }
  let qa := s2.players.getD playerIndex default
  let qb := s2.players.getD nextIdx default
  let ev : SwapEvent :=
    { swapperName := qa.name, targetName := qb.name, eventType := "0",
      unoTransfer :=
        if qb.hand.length = 1 then some qb.name
        else if qa.hand.length = 1 then some qa.name
        else none }
  { s2 with lastSwapEvent := some ev }

/-- `handleCardEffect(card, playerIndex)`.  The returned `Bool` is `true`
exactly when the JS returns `'needSwapTarget'`.  The JS `switch` on
`card.value` is rendered as the equivalent chain of equality tests. -/
def GameRoom.handleCardEffect (s : GameRoom) (card : Card) (playerIndex : Nat)
    (js : List Nat) : Bool × GameRoom :=
  if card.value = CValue.skip then (false, s.skipNextPlayer)
  else if card.value = CValue.reverse then
    let s1 := { s with direction := s.direction * (-1) }
    if s1.players.length = 2 then
      (false, { s1 with hasDrawnThisTurn := false })
    else
      (false, s1.advanceTurn)
  else if card.value = CValue.plus2 then
    if s.settings.allowStacking then
      (false, ({ s with stackedDrawCount := s.stackedDrawCount + 2 }).advanceTurn)
    else
      (false, (s.drawCards (s.getNextPlayerIndex none) 2 js).skipNextPlayer)
  else if card.value = CValue.wildPlus4 then
    if s.settings.allowStacking then
      (false, ({ s with stackedDrawCount := s.stackedDrawCount + 4 }).advanceTurn)
    else
      (false, (s.drawCards (s.getNextPlayerIndex none) 4 js).skipNextPlayer)
  else if card.value = CValue.num 0 then
    if s.settings.allowSpecial07 then
      (false, (s.zeroSwapState playerIndex (s.getNextPlayerIndex (some playerIndex))).advanceTurn)
    else
      (false, s.advanceTurn)
  else if card.value = CValue.num 7 then
    if s.settings.allowSpecial07 then
      (true, { s with pendingSwap7 := some (s.players.getD playerIndex default).id })
    else
      (false, s.advanceTurn)
  else if card.value = CValue.plus12 then
    (false, (s.drawCards (s.getNextPlayerIndex (some playerIndex)) 12 js).skipNextPlayer)
  else (false, s.advanceTurn)

/-- The result object `playCard` returns (`drawAnimation`, a pure broadcast
payload derived from the final state, is not modelled). -/
structure PlayResult where
  success : Bool
  error : Option Err := none
  winner : Option Nat := none
  needSwapTarget : Bool := false
  swapHappened : Option SwapEvent := none
deriving DecidableEq, Repr

/-- A failed `playCard` result. -/
def perr (e : Err) : PlayResult := { success := false, error := some e }

/-- The jump-in test of `playCard` (the parenthesised condition; the JS also
conjoins `allowJumpIn`, which stays at the call site here). -/
def GameRoom.isJumpIn (s : GameRoom) (card : Card) : Bool :=
  card.value == CValue.wildPlus4 ||
  (card.value == CValue.plus2 && card.color == s.currentColor) ||
  (card.type == CType.number && card.color == s.currentColor &&
    card.value == s.currentValue)

/-- The tail of `playCard` after the index / turn checks: legality check,
card movement, effect resolution, declare-flag re-validation and win report. -/
def GameRoom.playCardCore (s : GameRoom) (playerIndex cardIndex : Nat) (card : Card)
    (chosenColor : Option CColor) (js : List Nat) : PlayResult × GameRoom :=
  if ¬ s.canPlayCard card then (perr Err.cantPlay, s)
  else
    let p := s.players.getD playerIndex default
    let s1 := { s with
      players := s.players.set playerIndex { p with hand := p.hand.eraseIdx cardIndex },
      discardPile := s.discardPile ++ [card],
      currentColor := if card.type = CType.wild then chosenColor.getD CColor.red else card.color,
      currentValue := card.value }
    match s1.handleCardEffect card playerIndex js with
    | (true, s2) =>
      ({ success := true, needSwapTarget := true, winner := none }, s2)
    | (false, s2) =>
      let s3 := s2.checkUnoAfterPlay playerIndex
      ({ success := true,
         winner := if (s3.players.getD playerIndex default).hand.length = 0
                   then some playerIndex else none,
         swapHappened := s3.lastSwapEvent }, s3)

/-- `playCard(playerId, cardIndex, chosenColor)`. -/
def GameRoom.playCard (s0 : GameRoom) (playerId cardIndex : Nat)
    (chosenColor : Option CColor) (js : List Nat) : PlayResult × GameRoom :=
  let s := { s0 with lastSwapEvent := none }
  match findIndex (fun p => p.id == playerId) s.players with
  | none => (perr Err.playerNotFound, s)
  | some playerIndex =>
    match (s.players.getD playerIndex default).hand.get? cardIndex with
    | none => (perr Err.invalidCard, s)
    | some card =>
      if playerIndex ≠ s.currentPlayer then
        if s.settings.allowJumpIn && s.isJumpIn card then
          GameRoom.playCardCore { s with currentPlayer := playerIndex }
            playerIndex cardIndex card chosenColor js
        else (perr Err.notYourTurn, s)
      else
        s.playCardCore playerIndex cardIndex card chosenColor js

/-- The result object `drawCard` returns. -/
structure DrawResult where
  success : Bool
  error : Option Err := none
  drewStacked : Bool := false
  stackCount : Nat := 0
  canPlayDrawn : Bool := false
  cardsDrawn : Nat := 0
deriving DecidableEq, Repr

/-- `drawCard(playerId)`. -/
def GameRoom.drawCard (s : GameRoom) (playerId : Nat) (js : List Nat) :
    DrawResult × GameRoom :=
  match findIndex (fun p => p.id == playerId) s.players with
  | none => ({ success := false, error := some Err.notYourTurn }, s)
  | some pi =>
    if pi ≠ s.currentPlayer then
      ({ success := false, error := some Err.notYourTurn }, s)
    else if s.hasDrawnThisTurn then
      ({ success := false, error := some Err.drawOncePerTurn }, s)
    else if 0 < s.stackedDrawCount then
      let count := s.stackedDrawCount
      let s1 := s.drawCards pi count js
      let s2 := { s1 with stackedDrawCount := 0 }
      let p := s2.players.getD pi default
      let s3 := { s2 with players := s2.players.set pi { p with calledUno := false } }
      ({ success := true, drewStacked := true, stackCount := count }, s3.advanceTurn)
    else
      let s1 := { s with hasDrawnThisTurn := true }
      let s2 := s1.drawCards pi 1 js
      let drawn := (s2.players.getD pi default).hand.getLast?
      let canPlay := match drawn with | some c => s2.canPlayCard c | none => false
      let s3 := if canPlay then s2 else s2.advanceTurn
      let p := s3.players.getD pi default
      let s4 :=
        if 1 < p.hand.length then
          { s3 with players := s3.players.set pi { p with calledUno := false } }
        else s3
      ({ success := true, canPlayDrawn := canPlay, cardsDrawn := 1 }, s4)

/-- The result object `chooseSwapTarget` returns (it carries no winner
field at all). -/
structure SwapTargetResult where
  success : Bool
  error : Option Err := none
  swapperName : String := ""
  targetName : String := ""
deriving DecidableEq, Repr

/-- `chooseSwapTarget(playerId, targetId)`. -/
def GameRoom.chooseSwapTarget (s : GameRoom) (playerId targetId : Nat) :
    SwapTargetResult × GameRoom :=
  match s.pendingSwap7 with
  | none => ({ success := false, error := some Err.noSwapPending }, s)
  | some owner =>
    if owner ≠ playerId then ({ success := false, error := some Err.notYourSwap }, s)
    else
      match findIndex (fun p => p.id == playerId) s.players,
            findIndex (fun p => p.id == targetId) s.players with
      | some pi, some ti =>
        if pi = ti then ({ success := false, error := some Err.selfSwap }, s)
        else
          let s1 := s.swapHands pi ti
          let s2 := ({ s1 with pendingSwap7 := none }).advanceTurn
          ({ success := true, swapperName := (s2.players.getD pi default).name,
             targetName := (s2.players.getD ti default).name }, s2)
      | _, _ => ({ success := false, error := some Err.playerNotFound }, s)

/-- The result object `callUno` returns. -/
structure UnoResult where
  success : Bool
  error : Option Err := none
  playerName : String := ""
deriving DecidableEq, Repr

/-- `callUno(playerId)` (spec name: `declareLastCard`). -/
def GameRoom.callUno (s : GameRoom) (playerId : Nat) : UnoResult × GameRoom :=
  match findIndex (fun p => p.id == playerId) s.players with
  | none => ({ success := false, error := some Err.playerNotFound }, s)
  | some pi =>
    let p := s.players.getD pi default
    if p.hand.length ≠ 1 then
      ({ success := false, error := some Err.unoNeedOneCard }, s)
    else
      ({ success := true, playerName := p.name },
       { s with players := s.players.set pi { p with calledUno := true } })

/-- The result object `catchUnoViolation` returns. -/
structure CatchResult where
  success : Bool
  error : Option Err := none
  catcherName : String := ""
  caughtName : String := ""
  penaltyApplied : Bool := false
deriving DecidableEq, Repr

/-- `catchUnoViolation(catcherId, caughtId)` (spec name: `catchViolation`). -/
def GameRoom.catchUnoViolation (s : GameRoom) (catcherId caughtId : Nat)
    (js : List Nat) : CatchResult × GameRoom :=
  match findIndex (fun p => p.id == catcherId) s.players,
        findIndex (fun p => p.id == caughtId) s.players with
  | some ci, some cui =>
    let caught := s.players.getD cui default
    if (caught.hand.length != 1) || caught.calledUno then
      ({ success := false, error := some Err.noViolation }, s)
    else
      let s1 := s.drawCards cui 2 js
      let c1 := s1.players.getD cui default
      let s2 := { s1 with players := s1.players.set cui { c1 with calledUno := false } }
      ({ success := true, catcherName := (s.players.getD ci default).name,
         caughtName := c1.name, penaltyApplied := true }, s2)
  | _, _ => ({ success := false, error := some Err.playerNotFound }, s)

/- ── Reachability and the conservation quantity ──────────────────────── -/

/-- One externally driven engine operation, as the socket handlers invoke
them on an active room (reshuffles run inside `drawCards`; the random stream
of any internal shuffle is the constructor's `js` argument). -/
inductive Step : GameRoom → GameRoom → Prop
  | play (s : GameRoom) (pid idx : Nat) (c : Option CColor) (js : List Nat) :
      Step s (s.playCard pid idx c js).2
  | draw (s : GameRoom) (pid : Nat) (js : List Nat) :
      Step s (s.drawCard pid js).2
  | swapTarget (s : GameRoom) (pid tid : Nat) :
      Step s (s.chooseSwapTarget pid tid).2
  | uno (s : GameRoom) (pid : Nat) :
      Step s (s.callUno pid).2
  | catchV (s : GameRoom) (cid tid : Nat) (js : List Nat) :
      Step s (s.catchUnoViolation cid tid js).2

/-- States reachable from a given state by any sequence of operations. -/
def Reachable : GameRoom → GameRoom → Prop := Relation.ReflTransGen Step

/-- Total number of cards held in all hands. -/
def handsTotal (ps : List Player) : Nat :=
  (ps.map fun p => p.hand.length).sum

/-- The conservation quantity: `deckSize + discardSize + Σ handSizes`. -/
def GameRoom.totalCards (s : GameRoom) : Nat :=
  s.deck.length + s.discardPile.length + handsTotal s.players

/- ── Presence Engine (`public/js/playerPresence.js`) ─────────────────── -/

/-- `PlayerState`. -/
inductive PState
  | joining | lobby | ready | inGame | disconnected | timeout | reconnecting
deriving DecidableEq, Repr

/-- One tracked participant's record. -/
structure PPlayer where
  id : Nat
  name : String
  state : PState
  ready : Bool
  joinedAt : Nat
  lastSeen : Nat
  disconnectedAt : Option Nat := none
  reconnectedAt : Option Nat := none
  timedOutAt : Option Nat := none
deriving DecidableEq, Repr

/-- JS `Map` lookup (`Map.prototype.get`) over an association list kept in
insertion order. -/
def mapGet {β : Type} (k : Nat) : List (Nat × β) → Option β
  | [] => none
  | (k1, v) :: rest => if k1 = k then some v else mapGet k rest

/-- `Map.prototype.set`: overwrite the entry in place, else append. -/
def mapSet {β : Type} (k : Nat) (v : β) : List (Nat × β) → List (Nat × β)
  | [] => [(k, v)]
  | (k1, v1) :: rest => if k1 = k then (k, v) :: rest else (k1, v1) :: mapSet k v rest

/-- `Map.prototype.delete`. -/
def mapDelete {β : Type} (k : Nat) : List (Nat × β) → List (Nat × β)
  | [] => []
  | (k1, v1) :: rest => if k1 = k then rest else (k1, v1) :: mapDelete k rest

/-- The state of one `PlayerPresenceManager`.  `disconnectTimers` holds the
ids with a pending (neither fired nor cancelled) single-shot grace timer —
`clearTimeout` makes a cancelled timer unfireable, and `setTimeout` timers
fire at most once.  `now` is the wall clock read by `Date.now()`. -/
structure PM where
  players : List (Nat × PPlayer)
  minPlayers : Nat
  heartbeatInterval : Nat
  reconnectTimeout : Nat
  disconnectTimers : List Nat
  lastHeartbeat : List (Nat × Nat)
  now : Nat
deriving DecidableEq, Repr

/-- `getPlayer(playerId)`. -/
def PM.getPlayer (m : PM) (id : Nat) : Option PPlayer := mapGet id m.players

/-- The tracked connection state of a participant, if tracked. -/
def PM.stateOf (m : PM) (id : Nat) : Option PState := (m.getPlayer id).map (·.state)

/-- `addPlayer(playerId, playerName, state)`. -/
def PM.addPlayer (m : PM) (id : Nat) (name : String) (st : PState) : PM :=
  let p : PPlayer := { id := id, name := name, state := st, ready := false,
                       joinedAt := m.now, lastSeen := m.now }
  { m with players := mapSet id p m.players,
           lastHeartbeat := mapSet id m.now m.lastHeartbeat }

/-- `clearDisconnectTimer(playerId)`. -/
def PM.clearDisconnectTimer (m : PM) (id : Nat) : PM :=
  { m with disconnectTimers := m.disconnectTimers.erase id }

/-- `removePlayer(playerId)`. -/
def PM.removePlayer (m : PM) (id : Nat) : PM :=
  match mapGet id m.players with
  | none => m
  | some _ =>
    ({ m with players := mapDelete id m.players,
              lastHeartbeat := mapDelete id m.lastHeartbeat }).clearDisconnectTimer id

/-- `updatePlayerState(playerId, newState)`. -/
def PM.updatePlayerState (m : PM) (id : Nat) (st : PState) : PM :=
  match mapGet id m.players with
  | none => m
  | some p => { m with players := mapSet id { p with state := st } m.players }

/-- `setPlayerReady(playerId, isReady)` (the all-ready event emission has no
state effect). -/
def PM.setPlayerReady (m : PM) (id : Nat) (isReady : Bool) : PM :=
  match mapGet id m.players with
  | none => m
  | some p =>
    let m1 := { m with players := mapSet id { p with ready := isReady } m.players }
    if isReady then m1.updatePlayerState id PState.ready
    else m1.updatePlayerState id PState.lobby

/-- `startDisconnectTimer(playerId)`: cancel any previous timer, then arm a
fresh single-shot one. -/
def PM.startDisconnectTimer (m : PM) (id : Nat) : PM :=
  let m1 := m.clearDisconnectTimer id
  { m1 with disconnectTimers := m1.disconnectTimers ++ [id] }

/-- `onPlayerDisconnect(playerId)`. -/
def PM.onPlayerDisconnect (m : PM) (id : Nat) : PM :=
  match mapGet id m.players with
  | none => m
  | some p =>
    let p1 := { p with state := PState.disconnected, disconnectedAt := some m.now }
    let m1 := { m with players := mapSet id p1 m.players }
    m1.startDisconnectTimer id

/-- `onPlayerReconnect(playerId)`.  Note the JS reads `player.state` *after*
`onPlayerDisconnect` has already overwritten it with `DISCONNECTED`, so the
`=== IN_GAME` comparison is preserved here verbatim even though its only
caller reaches it with `p.state = disconnected`. -/
def PM.onPlayerReconnect (m : PM) (id : Nat) : PM :=
  match mapGet id m.players with
  | none => m
  | some p =>
    let m1 := m.clearDisconnectTimer id
    let newState :=
      if p.ready then PState.ready
      else if p.state = PState.inGame then PState.inGame
      else PState.lobby
    let p1 := { p with state := newState, reconnectedAt := some m.now }
    { m1 with players := mapSet id p1 m1.players }

/-- `receiveHeartbeat(playerId)`. -/
def PM.receiveHeartbeat (m : PM) (id : Nat) : PM :=
  match mapGet id m.players with
  | none => m
  | some p =>
    let m1 := { m with lastHeartbeat := mapSet id m.now m.lastHeartbeat,
                       players := mapSet id { p with lastSeen := m.now } m.players }
    if p.state = PState.disconnected then m1.onPlayerReconnect id else m1

/-- `onPlayerTimeout(playerId)` (the grace timer's callback body). -/
def PM.onPlayerTimeout (m : PM) (id : Nat) : PM :=
  match mapGet id m.players with
  | none => m
  | some p =>
    let p1 := { p with state := PState.timeout, timedOutAt := some m.now }
    { m with players := mapSet id p1 m.players }

/-- Expiry of the grace timer for `id`: a timer only fires while it is still
pending (a `clearTimeout`-cancelled timer never runs), and it fires once. -/
def PM.fireDisconnectTimer (m : PM) (id : Nat) : PM :=
  if m.disconnectTimers.contains id then
    ({ m with disconnectTimers := m.disconnectTimers.erase id }).onPlayerTimeout id
  else m

/-- The per-entry body of the `checkHeartbeats` sweep. -/
def sweepOne (m : PM) (entry : Nat × Nat) : PM :=
  match mapGet entry.1 m.players with
  | none => m
  | some p =>
    if p.state = PState.inGame ∨ p.state = PState.ready ∨ p.state = PState.lobby then
      if m.heartbeatInterval * 2 < m.now - entry.2 ∧ p.state ≠ PState.disconnected then
        m.onPlayerDisconnect entry.1
      else m
    else m

/-- `checkHeartbeats()`: the periodic liveness sweep (`onPlayerDisconnect`
never touches `lastHeartbeat`, so iterating over the initial entry list is
the JS live iteration). -/
def PM.checkHeartbeats (m : PM) : PM :=
  List.foldl sweepOne m m.lastHeartbeat

/-- `finalPresenceCheck()`: the subset of participants whose heartbeat age
exceeds twice the heartbeat interval. -/
def PM.missingPlayers (m : PM) : List PPlayer :=
  (m.players.map Prod.snd).filter fun p =>
    match mapGet p.id m.lastHeartbeat with
    | some lastBeat => decide (m.heartbeatInterval * 2 < m.now - lastBeat)
    | none => false

/-- The external events that drive one presence tracker, as `server.js`
drives it: joins always enter with `PlayerState.LOBBY` (both call sites),
ready toggles, client heartbeats, the socket-level disconnect handler, the
periodic sweep, grace-timer expiries, the bulk `IN_GAME` transition at game
start, and the passage of time. -/
inductive PLabel
  | add (id : Nat) (name : String)
  | remove (id : Nat)
  | setReady (id : Nat) (b : Bool)
  | heartbeat (id : Nat)
  | disconnect (id : Nat)
  | sweep
  | fire (id : Nat)
  | startGame (id : Nat)
  | tick (d : Nat)
deriving DecidableEq, Repr

/-- Apply one event. -/
def pstep : PLabel → PM → PM
  | PLabel.add id n, m => m.addPlayer id n PState.lobby
  | PLabel.remove id, m => m.removePlayer id
  | PLabel.setReady id b, m => m.setPlayerReady id b
  | PLabel.heartbeat id, m => m.receiveHeartbeat id
  | PLabel.disconnect id, m => m.onPlayerDisconnect id
  | PLabel.sweep, m => m.checkHeartbeats
  | PLabel.fire id, m => m.fireDisconnectTimer id
  | PLabel.startGame id, m => m.updatePlayerState id PState.inGame
  | PLabel.tick d, m => { m with now := m.now + d }

/-- Apply a sequence of events. -/
def runLabels : List PLabel → PM → PM
  | [], m => m
  | l :: ls, m => runLabels ls (pstep l m)

/-- `true` when participant `id` is never observed `DISCONNECTED` after any
event of the sequence — i.e. no new disconnect is detected for them. -/
def noDiscAlong (id : Nat) : PM → List PLabel → Bool
  | _, [] => true
  | m, l :: ls =>
    ((pstep l m).stateOf id != some PState.disconnected) && noDiscAlong id (pstep l m) ls

/- ── Projections and concrete states used by the verification ────────── -/

/-- The control fields of a room that internal card draws never touch. -/
def GameRoom.ctrl (s : GameRoom) :
    Nat × Int × Settings × Nat × Nat × Bool × Option Nat × CColor × CValue :=
  (s.currentPlayer, s.direction, s.settings, s.players.length, s.stackedDrawCount,
   s.hasDrawnThisTurn, s.pendingSwap7, s.currentColor, s.currentValue)

/-- Every `MatchState` field of the spec's data model except
`currentPlayerIndex` (`_lastSwapEvent` is a result-reporting scratch field,
not part of the spec's `MatchState`). -/
def coreExceptTurn (s : GameRoom) :
    List Player × List Card × List Card × CColor × CValue × Int × Nat × Bool ×
      Settings × Option Nat :=
  (s.players, s.deck, s.discardPile, s.currentColor, s.currentValue, s.direction,
   s.stackedDrawCount, s.hasDrawnThisTurn, s.settings, s.pendingSwap7)

/-- A red number card. -/
def rnum (n : Nat) : Card :=
  { color := CColor.red, value := CValue.num n, type := CType.number }

/-- The red `+2` action card. -/
def p2r : Card := { color := CColor.red, value := CValue.plus2, type := CType.action }

/-- A `Wild+4`. -/
def w4card : Card := { color := CColor.wild, value := CValue.wildPlus4, type := CType.wild }

/-- All optional rules off. -/
def settsPlain : Settings :=
  { allowStacking := false, allowJumpIn := false, allowSpecial07 := false, allowPlus12 := false }

/-- Stacking and jump-in on. -/
def settsStack : Settings :=
  { allowStacking := true, allowJumpIn := true, allowSpecial07 := false, allowPlus12 := false }

/-- Special-0/7 on. -/
def settsZero : Settings :=
  { allowStacking := false, allowJumpIn := false, allowSpecial07 := true, allowPlus12 := false }

/-- A shuffle under which `dealCards 2` burns a red `Skip` while selecting
the starter: the top of the shuffled deck is `1r 2r 3r 4r Skip-r 8r …`. -/
def jsBurn : List Nat := [1, 2, 3, 4, 10, 8]

/-- The room dealt under `jsBurn` (two players, two cards each). -/
def roomBurn : GameRoom :=
  (initRoom [(0, "P0"), (1, "P1")] settsPlain jsBurn 2).getD (mkRoom [] settsPlain)

/-- A shuffle dealing `P0 = [1r, +2r]`, `P1 = [2r, 9r]`, starter `8r`. -/
def jsTrace : List Nat := [1, 12, 2, 9, 8]

/-- The dealt room for the declare-flag trace. -/
def roomU0 : GameRoom :=
  (initRoom [(0, "P0"), (1, "P1")] settsPlain jsTrace 2).getD (mkRoom [] settsPlain)

/-- After `P0` plays the red 1. -/
def roomU1 : GameRoom := (roomU0.playCard 0 0 none []).2

/-- After `P1` plays the red 2 (down to one card). -/
def roomU2 : GameRoom := (roomU1.playCard 1 0 none []).2

/-- After `P1` declares the last card. -/
def roomU3 : GameRoom := (roomU2.callUno 1).2

/-- After `P0` plays the red `+2`: `P1` is penalty-drawn to three cards. -/
def roomU4 : GameRoom := (roomU3.playCard 0 0 none []).2

/-- Stacking in progress (`+2` active, stack 2), jump-in enabled, `P1` (not
the current player) holding a `Wild+4`. -/
def roomJ : GameRoom :=
  { players := [ { id := 0, name := "P0", hand := [rnum 5], calledUno := false },
                 { id := 1, name := "P1", hand := [w4card], calledUno := false } ],
    deck := [rnum 3, rnum 4, rnum 6], discardPile := [p2r],
    currentPlayer := 0, currentColor := CColor.red, currentValue := CValue.plus2,
    direction := 1, stackedDrawCount := 0 + 2, hasDrawnThisTurn := false,
    settings := settsStack, pendingSwap7 := none, lastSwapEvent := none }

/-- Jump-in enabled, no stack, active card a red 5, `P1` holding a `Wild+4`
(neither an exact duplicate nor a color-matching penalty card). -/
def roomW : GameRoom :=
  { roomJ with stackedDrawCount := 0, currentValue := CValue.num 5, discardPile := [rnum 5] }

/-- Pending stack of 2 with the once-per-turn draw gate already tripped. -/
def roomG : GameRoom := { roomJ with hasDrawnThisTurn := true }

/-- Special-0 on: `P0` about to play a red 0; afterwards `P1` holds exactly
one card. -/
def roomZ : GameRoom :=
  { players := [ { id := 0, name := "P0", hand := [rnum 0, rnum 5], calledUno := false },
                 { id := 1, name := "P1", hand := [rnum 9, rnum 3], calledUno := false } ],
    deck := [], discardPile := [rnum 8],
    currentPlayer := 0, currentColor := CColor.red, currentValue := CValue.num 8,
    direction := 1, stackedDrawCount := 0, hasDrawnThisTurn := false,
    settings := settsZero, pendingSwap7 := none, lastSwapEvent := none }

/-- Special-7 on: `P0` about to play a red 7 as their last card. -/
def roomS7 : GameRoom :=
  { roomZ with players := [ { id := 0, name := "P0", hand := [rnum 7], calledUno := false },
                            { id := 1, name := "P1", hand := [rnum 9, rnum 3], calledUno := false } ] }

/-- A declared player about to play down to one card. -/
def roomWitPlay : GameRoom :=
  { roomZ with settings := settsPlain,
               players := [ { id := 0, name := "P0", hand := [rnum 5, rnum 6], calledUno := true },
                            { id := 1, name := "P1", hand := [rnum 9], calledUno := false } ] }

/-- A declared player with an empty hand about to draw one card. -/
def roomWitDraw : GameRoom :=
  { roomZ with settings := settsPlain, deck := [rnum 3],
               players := [ { id := 0, name := "P0", hand := [], calledUno := true },
                            { id := 1, name := "P1", hand := [rnum 9], calledUno := false } ] }

/-- A disconnected tracked participant (`ready` unset, grace timer pending). -/
def pp5 : PPlayer :=
  { id := 5, name := "P5", state := PState.disconnected, ready := false,
    joinedAt := 0, lastSeen := 0 }

/-- A presence tracker holding only `pp5`. -/
def pmC9 : PM :=
  { players := [(5, pp5)], minPlayers := 2, heartbeatInterval := 5000,
    reconnectTimeout := 60000, disconnectTimers := [5], lastHeartbeat := [(5, 0)],
    now := 12000 }

/-- Wait out the original grace period, then let the (cancelled) timer fire. -/
def ls9 : List PLabel := [PLabel.tick 100000, PLabel.fire 5]

/-- The inductive invariant behind C9: participant `id` is tracked with
unique keys, is neither `DISCONNECTED` nor `TIMEOUT`, and holds no pending
grace timer. -/
def GoodP (id : Nat) (m : PM) : Prop :=
  (m.players.map Prod.fst).Nodup ∧
  m.stateOf id ≠ some PState.disconnected ∧
  m.stateOf id ≠ some PState.timeout ∧
  id ∉ m.disconnectTimers

/- ── List helper lemmas ──────────────────────────────────────────────── -/

theorem findIndex_id : ∀ (ps : List Player) (pid i : Nat),
    findIndex (fun p => p.id == pid) ps = some i →
    i < ps.length ∧ (ps.getD i default).id = pid := by
  intro ps
  induction ps with
  | nil => intro pid i h; simp [findIndex] at h
  | cons a as ih =>
    intro pid i h
    simp only [findIndex] at h
    by_cases hp : a.id == pid
    · simp only [hp, if_pos] at h
      cases h
      refine ⟨by simp, ?_⟩
      have ha : a.id = pid := by simpa using hp
      simpa using ha
    · simp only [hp] at h
      simp only [Bool.false_eq_true, if_false, Option.map_eq_some'] at h
      obtain ⟨j, hj, rfl⟩ := h
      obtain ⟨h1, h2⟩ := ih pid j hj
      exact ⟨by simpa using Nat.succ_lt_succ h1, by simpa using h2⟩

theorem getD_set_self {α : Type} [Inhabited α] :
    ∀ (l : List α) (i : Nat) (x : α), i < l.length →
      (l.set i x).getD i default = x := by
  intro l
  induction l with
  | nil => intro i x h; simp at h
  | cons a as ih =>
    intro i x h
    cases i with
    | zero => rfl
    | succ j => exact ih j x (by simpa using Nat.lt_of_succ_lt_succ h)

theorem getD_set_ne {α : Type} [Inhabited α] :
    ∀ (l : List α) (i j : Nat) (x : α), i ≠ j →
      (l.set i x).getD j default = l.getD j default := by
  intro l
  induction l with
  | nil => intro i j x _; simp [List.set]
  | cons a as ih =>
    intro i j x hne
    cases i with
    | zero =>
      cases j with
      | zero => exact absurd rfl hne
      | succ _ => rfl
    | succ i1 =>
      cases j with
      | zero => rfl
      | succ j1 => exact ih i1 j1 x (by omega)

theorem handsTotal_cons (p : Player) (ps : List Player) :
    handsTotal (p :: ps) = p.hand.length + handsTotal ps := by
  simp [handsTotal]

theorem handsTotal_set : ∀ (ps : List Player) (i : Nat) (q : Player), i < ps.length →
    handsTotal (ps.set i q) + (ps.getD i default).hand.length =
      handsTotal ps + q.hand.length := by
  intro ps
  induction ps with
  | nil => intro i q h; simp at h
  | cons a as ih =>
    intro i q h
    cases i with
    | zero =>
      simp only [List.set, List.getD, List.get?, Option.getD_some, handsTotal_cons]
      omega
    | succ j =>
      have hj : j < as.length := by simpa using Nat.lt_of_succ_lt_succ h
      have := ih j q hj
      simp only [List.set, handsTotal_cons]
      simp only [List.getD] at this ⊢
      simp only [List.get?]
      omega

/- ── Engine: length and frame lemmas ─────────────────────────────────── -/

theorem swapAt_length (l : List Card) (i j : Nat) :
    (swapAt l i j).length = l.length := by
  unfold swapAt
  split <;> simp

theorem fyLoop_length : ∀ (i : Nat) (l : List Card) (js : List Nat),
    (fyLoop l i js).length = l.length := by
  intro i
  induction i with
  | zero => intro l js; rfl
  | succ n ih =>
    intro l js
    show (fyLoop (swapAt l (n + 1) (js.headD 0 % (n + 2))) n js.tail).length = _
    rw [ih, swapAt_length]

theorem shuffleDeck_length (js : List Nat) (l : List Card) :
    (shuffleDeck js l).length = l.length := fyLoop_length _ _ _

theorem advanceTurn_players (s : GameRoom) : s.advanceTurn.players = s.players := rfl

theorem advanceTurn_totalCards (s : GameRoom) : s.advanceTurn.totalCards = s.totalCards := rfl

theorem skipNextPlayer_totalCards (s : GameRoom) :
    s.skipNextPlayer.totalCards = s.totalCards := rfl

theorem skipNextPlayer_players (s : GameRoom) :
    s.skipNextPlayer.players = s.players := rfl

theorem getNextPlayerIndex_lt (s : GameRoom) (x : Option Nat)
    (h : 0 < s.players.length) : s.getNextPlayerIndex x < s.players.length := by
  unfold GameRoom.getNextPlayerIndex
  have hne : (s.players.length : Int) ≠ 0 := by
    simpa using Nat.pos_iff_ne_zero.mp h
  have h1 : 0 ≤ ((x.getD s.currentPlayer : Nat) + s.direction + s.players.length) %
      (s.players.length : Int) := Int.emod_nonneg _ hne
  have h2 : ((x.getD s.currentPlayer : Nat) + s.direction + s.players.length) %
      (s.players.length : Int) < (s.players.length : Int) :=
    Int.emod_lt_of_pos _ (by exact_mod_cast h)
  omega

theorem reshuffleDeck_frame (s : GameRoom) (js : List Nat) :
    (s.reshuffleDeck js).players = s.players ∧
    (s.reshuffleDeck js).currentPlayer = s.currentPlayer ∧
    (s.reshuffleDeck js).direction = s.direction ∧
    (s.reshuffleDeck js).settings = s.settings ∧
    (s.reshuffleDeck js).stackedDrawCount = s.stackedDrawCount ∧
    (s.reshuffleDeck js).hasDrawnThisTurn = s.hasDrawnThisTurn := by
  unfold GameRoom.reshuffleDeck
  split
  · exact ⟨rfl, rfl, rfl, rfl, rfl, rfl⟩
  · split <;> exact ⟨rfl, rfl, rfl, rfl, rfl, rfl⟩

theorem reshuffleDeck_totalCards_of_deck_nil (s : GameRoom) (js : List Nat)
    (h : s.deck = []) : (s.reshuffleDeck js).totalCards = s.totalCards := by
  unfold GameRoom.reshuffleDeck
  split
  · rfl
  · rename_i hlen
    split
    · rfl
    · rename_i top htop
      have hd : s.discardPile ≠ [] := by
        intro hnil
        rw [hnil] at hlen
        simp at hlen
      unfold GameRoom.totalCards
      simp only [shuffleDeck_length, List.length_dropLast, List.length_singleton, h]
      have : 0 < s.discardPile.length := List.length_pos.mpr hd
      simp only [List.length_nil]
      omega

theorem handsTotal_set_flag (ps : List Player) (i : Nat) (q : Player)
    (hi : i < ps.length) (hq : q.hand.length = (ps.getD i default).hand.length) :
    handsTotal (ps.set i q) = handsTotal ps := by
  have h := handsTotal_set ps i q hi
  omega

theorem swapHands_totalCards (s : GameRoom) (a b : Nat)
    (ha : a < s.players.length) (hb : b < s.players.length) :
    (s.swapHands a b).totalCards = s.totalCards := by
  unfold GameRoom.swapHands GameRoom.totalCards
  simp only
  have h1 := handsTotal_set s.players a
    { s.players.getD a default with hand := (s.players.getD b default).hand } ha
  have hb1 : b < (s.players.set a
      { s.players.getD a default with hand := (s.players.getD b default).hand }).length := by
    simpa using hb
  have h2 := handsTotal_set
    (s.players.set a { s.players.getD a default with hand := (s.players.getD b default).hand }) b
    { s.players.getD b default with hand := (s.players.getD a default).hand } hb1
  by_cases hab : a = b
  · subst hab
    rw [getD_set_self _ _ _ ha] at h2
    simp only at h1 h2
    omega
  · rw [getD_set_ne _ _ _ _ hab] at h2
    simp only at h1 h2
    omega

theorem reshuffleDeck_ctrl (s : GameRoom) (js : List Nat) :
    (s.reshuffleDeck js).ctrl = s.ctrl := by
  unfold GameRoom.reshuffleDeck
  split
  · rfl
  · split <;> rfl


theorem ctrl_parts {a b : GameRoom} (h : a.ctrl = b.ctrl) :
    a.currentPlayer = b.currentPlayer ∧ a.direction = b.direction ∧
    a.settings = b.settings ∧ a.players.length = b.players.length ∧
    a.stackedDrawCount = b.stackedDrawCount ∧ a.hasDrawnThisTurn = b.hasDrawnThisTurn ∧
    a.pendingSwap7 = b.pendingSwap7 ∧ a.currentColor = b.currentColor ∧
    a.currentValue = b.currentValue := by
  unfold GameRoom.ctrl at h
  simp only [Prod.mk.injEq] at h
  tauto

theorem pushDraw_totalCards (t : GameRoom) (pi : Nat) (c : Card)
    (hpi : pi < t.players.length) (hc : t.deck.getLast? = some c) :
    ({ t with deck := t.deck.dropLast,
              players := t.players.set pi
                { t.players.getD pi default with
                    hand := (t.players.getD pi default).hand ++ [c] } } : GameRoom).totalCards
      = t.totalCards := by
  have hne : t.deck ≠ [] := by
    intro hnil
    rw [hnil] at hc
    simp at hc
  have hdl : 0 < t.deck.length := List.length_pos.mpr hne
  have hh := handsTotal_set t.players pi
    { t.players.getD pi default with hand := (t.players.getD pi default).hand ++ [c] } hpi
  unfold GameRoom.totalCards
  simp only [List.length_dropLast]
  simp only [List.length_append, List.length_singleton] at hh
  omega

theorem drawOne_ctrl (s : GameRoom) (pi : Nat) (js : List Nat) :
    (s.drawOne pi js).ctrl = s.ctrl := by
  unfold GameRoom.drawOne
  by_cases hdeck : s.deck.length = 0
  · simp only [if_pos hdeck]
    have hc := reshuffleDeck_ctrl s js
    split
    · exact hc
    · simp only [GameRoom.ctrl, Prod.mk.injEq, List.length_set] at hc ⊢
      tauto
  · simp only [if_neg hdeck]
    split
    · rfl
    · simp only [GameRoom.ctrl, Prod.mk.injEq, List.length_set]

theorem drawOne_totalCards (s : GameRoom) (pi : Nat) (js : List Nat)
    (hpi : pi < s.players.length) : (s.drawOne pi js).totalCards = s.totalCards := by
  unfold GameRoom.drawOne
  by_cases hdeck : s.deck.length = 0
  · simp only [if_pos hdeck]
    have htc := reshuffleDeck_totalCards_of_deck_nil s js (List.length_eq_zero.mp hdeck)
    have hfr := (reshuffleDeck_frame s js).1
    have hpi1 : pi < (s.reshuffleDeck js).players.length := by rw [hfr]; exact hpi
    split
    · exact htc
    · rename_i c hc
      rw [pushDraw_totalCards (s.reshuffleDeck js) pi c hpi1 hc]
      exact htc
  · simp only [if_neg hdeck]
    split
    · rfl
    · rename_i c hc
      exact pushDraw_totalCards s pi c hpi hc

theorem drawCards_ctrl : ∀ (n : Nat) (s : GameRoom) (pi : Nat) (js : List Nat),
    (s.drawCards pi n js).ctrl = s.ctrl := by
  intro n
  induction n with
  | zero => intro s pi js; rfl
  | succ m ih =>
    intro s pi js
    show ((s.drawOne pi js).drawCards pi m js).ctrl = s.ctrl
    rw [ih, drawOne_ctrl]

theorem drawCards_totalCards : ∀ (n : Nat) (s : GameRoom) (pi : Nat) (js : List Nat),
    pi < s.players.length → (s.drawCards pi n js).totalCards = s.totalCards := by
  intro n
  induction n with
  | zero => intro s pi js _; rfl
  | succ m ih =>
    intro s pi js hpi
    show ((s.drawOne pi js).drawCards pi m js).totalCards = s.totalCards
    have hlen := (ctrl_parts (drawOne_ctrl s pi js)).2.2.2.1
    rw [ih _ _ _ (by rw [hlen]; exact hpi), drawOne_totalCards s pi js hpi]

theorem drawOne_hand_add (s : GameRoom) (pi : Nat) (js : List Nat)
    (hpi : pi < s.players.length) (hdeck : s.deck ≠ []) :
    ((s.drawOne pi js).players.getD pi default).hand.length =
      (s.players.getD pi default).hand.length + 1 ∧
    (s.drawOne pi js).deck.length = s.deck.length - 1 := by
  unfold GameRoom.drawOne
  have hdl : ¬ s.deck.length = 0 := by
    intro h
    exact hdeck (List.length_eq_zero.mp h)
  simp only [if_neg hdl]
  split
  · rename_i hc
    exfalso
    apply hdeck
    simpa using hc
  · rename_i c hc
    constructor
    · rw [getD_set_self _ _ _ hpi]
      simp
    · simp [List.length_dropLast]

theorem drawCards_hand_add : ∀ (n : Nat) (s : GameRoom) (pi : Nat) (js : List Nat),
    pi < s.players.length → n ≤ s.deck.length →
    ((s.drawCards pi n js).players.getD pi default).hand.length =
      (s.players.getD pi default).hand.length + n := by
  intro n
  induction n with
  | zero => intro s pi js _ _; rfl
  | succ m ih =>
    intro s pi js hpi hn
    show (((s.drawOne pi js).drawCards pi m js).players.getD pi default).hand.length = _
    have hdeck : s.deck ≠ [] := by
      intro hnil
      rw [hnil] at hn
      simp at hn
    obtain ⟨hh, hd⟩ := drawOne_hand_add s pi js hpi hdeck
    have hlen := (ctrl_parts (drawOne_ctrl s pi js)).2.2.2.1
    have hm : m ≤ (s.drawOne pi js).deck.length := by omega
    rw [ih _ _ _ (by rw [hlen]; exact hpi) hm, hh]
    omega

theorem checkUnoAfterPlay_totalCards (s : GameRoom) (pi : Nat)
    (hpi : pi < s.players.length) :
    (s.checkUnoAfterPlay pi).totalCards = s.totalCards := by
  unfold GameRoom.checkUnoAfterPlay
  dsimp only
  split
  · unfold GameRoom.totalCards
    dsimp only
    rw [handsTotal_set_flag s.players pi
      { s.players.getD pi default with calledUno := false } hpi rfl]
  · rfl

theorem checkUnoAfterPlay_ctrl (s : GameRoom) (pi : Nat) :
    (s.checkUnoAfterPlay pi).ctrl = s.ctrl := by
  unfold GameRoom.checkUnoAfterPlay
  dsimp only
  split
  · simp only [GameRoom.ctrl, List.length_set]
  · rfl

theorem effect_skip (s : GameRoom) (card : Card) (pi : Nat) (js : List Nat)
    (h : card.value = CValue.skip) :
    s.handleCardEffect card pi js = (false, s.skipNextPlayer) := by
  unfold GameRoom.handleCardEffect
  rw [h]
  simp

theorem effect_reverse (s : GameRoom) (card : Card) (pi : Nat) (js : List Nat)
    (h : card.value = CValue.reverse) :
    s.handleCardEffect card pi js =
      (false,
        if s.players.length = 2 then
          { s with direction := s.direction * (-1), hasDrawnThisTurn := false }
        else ({ s with direction := s.direction * (-1) } : GameRoom).advanceTurn) := by
  unfold GameRoom.handleCardEffect
  rw [h]
  simp
  split <;> rfl

theorem effect_plus2 (s : GameRoom) (card : Card) (pi : Nat) (js : List Nat)
    (h : card.value = CValue.plus2) :
    s.handleCardEffect card pi js =
      (false,
        if s.settings.allowStacking then
          ({ s with stackedDrawCount := s.stackedDrawCount + 2 } : GameRoom).advanceTurn
        else (s.drawCards (s.getNextPlayerIndex none) 2 js).skipNextPlayer) := by
  unfold GameRoom.handleCardEffect
  rw [h]
  simp
  split <;> rfl

theorem effect_wild4 (s : GameRoom) (card : Card) (pi : Nat) (js : List Nat)
    (h : card.value = CValue.wildPlus4) :
    s.handleCardEffect card pi js =
      (false,
        if s.settings.allowStacking then
          ({ s with stackedDrawCount := s.stackedDrawCount + 4 } : GameRoom).advanceTurn
        else (s.drawCards (s.getNextPlayerIndex none) 4 js).skipNextPlayer) := by
  unfold GameRoom.handleCardEffect
  rw [h]
  simp
  split <;> rfl

theorem effect_zero_on (s : GameRoom) (card : Card) (pi : Nat) (js : List Nat)
    (hv : card.value = CValue.num 0) (hs : s.settings.allowSpecial07 = true) :
    s.handleCardEffect card pi js =
      (false, (s.zeroSwapState pi (s.getNextPlayerIndex (some pi))).advanceTurn) := by
  unfold GameRoom.handleCardEffect
  rw [hv, hs]
  simp

theorem effect_zero_off (s : GameRoom) (card : Card) (pi : Nat) (js : List Nat)
    (hv : card.value = CValue.num 0) (hs : s.settings.allowSpecial07 = false) :
    s.handleCardEffect card pi js = (false, s.advanceTurn) := by
  unfold GameRoom.handleCardEffect
  rw [hv, hs]
  simp

theorem effect_seven_on (s : GameRoom) (card : Card) (pi : Nat) (js : List Nat)
    (hv : card.value = CValue.num 7) (hs : s.settings.allowSpecial07 = true) :
    s.handleCardEffect card pi js =
      (true, { s with pendingSwap7 := some (s.players.getD pi default).id }) := by
  unfold GameRoom.handleCardEffect
  rw [hv, hs]
  simp

theorem effect_seven_off (s : GameRoom) (card : Card) (pi : Nat) (js : List Nat)
    (hv : card.value = CValue.num 7) (hs : s.settings.allowSpecial07 = false) :
    s.handleCardEffect card pi js = (false, s.advanceTurn) := by
  unfold GameRoom.handleCardEffect
  rw [hv, hs]
  simp

theorem effect_plus12 (s : GameRoom) (card : Card) (pi : Nat) (js : List Nat)
    (h : card.value = CValue.plus12) :
    s.handleCardEffect card pi js =
      (false, (s.drawCards (s.getNextPlayerIndex (some pi)) 12 js).skipNextPlayer) := by
  unfold GameRoom.handleCardEffect
  rw [h]
  simp

theorem effect_other (s : GameRoom) (card : Card) (pi : Nat) (js : List Nat)
    (h1 : card.value ≠ CValue.skip) (h2 : card.value ≠ CValue.reverse)
    (h3 : card.value ≠ CValue.plus2) (h4 : card.value ≠ CValue.wildPlus4)
    (h5 : card.value ≠ CValue.num 0) (h6 : card.value ≠ CValue.num 7)
    (h7 : card.value ≠ CValue.plus12) :
    s.handleCardEffect card pi js = (false, s.advanceTurn) := by
  unfold GameRoom.handleCardEffect
  rw [if_neg h1, if_neg h2, if_neg h3, if_neg h4, if_neg h5, if_neg h6, if_neg h7]

theorem zeroSwapState_totalCards (s : GameRoom) (pi ni : Nat)
    (hpi : pi < s.players.length) (hni : ni < s.players.length) :
    (s.zeroSwapState pi ni).totalCards = s.totalCards := by
  unfold GameRoom.zeroSwapState GameRoom.swapHands
  dsimp only
  unfold GameRoom.totalCards
  dsimp only
  set pa := s.players.getD pi default with hpa
  set pb := s.players.getD ni default with hpb
  set L1 := (s.players.set pi { pa with hand := pb.hand }).set ni { pb with hand := pa.hand }
    with hL1
  have hlenL1 : L1.length = s.players.length := by
    rw [hL1]
    simp
  have hpi1 : pi < L1.length := by rw [hlenL1]; exact hpi
  have hni1 : ni < L1.length := by rw [hlenL1]; exact hni
  have h3 : handsTotal (L1.set pi { L1.getD pi default with calledUno := false }) =
      handsTotal L1 := handsTotal_set_flag L1 pi _ hpi1 rfl
  have hni2 : ni < (L1.set pi { L1.getD pi default with calledUno := false }).length := by
    rw [List.length_set]
    exact hni1
  have h4 : handsTotal ((L1.set pi { L1.getD pi default with calledUno := false }).set ni
      { L1.getD ni default with calledUno := false }) =
      handsTotal (L1.set pi { L1.getD pi default with calledUno := false }) := by
    apply handsTotal_set_flag _ _ _ hni2
    by_cases hpn : pi = ni
    · rw [← hpn, getD_set_self _ _ _ hpi1]
    · rw [getD_set_ne _ _ _ _ hpn]
  have h1 := handsTotal_set s.players pi { pa with hand := pb.hand } hpi
  have hni3 : ni < (s.players.set pi { pa with hand := pb.hand }).length := by
    rw [List.length_set]
    exact hni
  have h2 := handsTotal_set (s.players.set pi { pa with hand := pb.hand }) ni
    { pb with hand := pa.hand } hni3
  have hL1tot : handsTotal L1 = handsTotal s.players := by
    rw [hL1]
    by_cases hpn : pi = ni
    · subst hpn
      rw [getD_set_self _ _ _ hpi] at h2
      simp only [← hpa] at h1 h2
      omega
    · rw [getD_set_ne _ _ _ _ hpn] at h2
      simp only [← hpa, ← hpb] at h1 h2
      omega
  rw [h4, h3, hL1tot]

theorem handleCardEffect_totalCards (s : GameRoom) (card : Card) (pi : Nat) (js : List Nat)
    (hpi : pi < s.players.length) :
    (s.handleCardEffect card pi js).2.totalCards = s.totalCards := by
  have hpos : 0 < s.players.length := Nat.lt_of_le_of_lt (Nat.zero_le pi) hpi
  have hni := getNextPlayerIndex_lt s (some pi) hpos
  have hnc := getNextPlayerIndex_lt s none hpos
  by_cases h1 : card.value = CValue.skip
  · rw [effect_skip s card pi js h1]
    rfl
  by_cases h2 : card.value = CValue.reverse
  · rw [effect_reverse s card pi js h2]
    dsimp only
    split <;> rfl
  by_cases h3 : card.value = CValue.plus2
  · rw [effect_plus2 s card pi js h3]
    dsimp only
    split
    · rfl
    · rw [skipNextPlayer_totalCards, drawCards_totalCards 2 s _ js hnc]
  by_cases h4 : card.value = CValue.wildPlus4
  · rw [effect_wild4 s card pi js h4]
    dsimp only
    split
    · rfl
    · rw [skipNextPlayer_totalCards, drawCards_totalCards 4 s _ js hnc]
  by_cases h5 : card.value = CValue.num 0
  · by_cases hs : s.settings.allowSpecial07
    · rw [effect_zero_on s card pi js h5 hs]
      dsimp only
      rw [advanceTurn_totalCards, zeroSwapState_totalCards s pi _ hpi hni]
    · rw [effect_zero_off s card pi js h5 (Bool.not_eq_true _ ▸ hs)]
      rfl
  by_cases h6 : card.value = CValue.num 7
  · by_cases hs : s.settings.allowSpecial07
    · rw [effect_seven_on s card pi js h6 hs]
      rfl
    · rw [effect_seven_off s card pi js h6 (Bool.not_eq_true _ ▸ hs)]
      rfl
  by_cases h7 : card.value = CValue.plus12
  · rw [effect_plus12 s card pi js h7]
    dsimp only
    rw [skipNextPlayer_totalCards, drawCards_totalCards 12 s _ js hni]
  rw [effect_other s card pi js h1 h2 h3 h4 h5 h6 h7]
  rfl

theorem zeroSwapState_players_length (s : GameRoom) (pi ni : Nat) :
    (s.zeroSwapState pi ni).players.length = s.players.length := by
  unfold GameRoom.zeroSwapState GameRoom.swapHands
  dsimp only
  simp only [List.length_set]

set_option maxHeartbeats 1000000 in
theorem handleCardEffect_players_length (s : GameRoom) (card : Card) (pi : Nat)
    (js : List Nat) :
    (s.handleCardEffect card pi js).2.players.length = s.players.length := by
  by_cases h1 : card.value = CValue.skip
  · rw [effect_skip s card pi js h1]
    rfl
  by_cases h2 : card.value = CValue.reverse
  · rw [effect_reverse s card pi js h2]
    dsimp only
    split <;> rfl
  by_cases h3 : card.value = CValue.plus2
  · rw [effect_plus2 s card pi js h3]
    dsimp only
    split
    · rfl
    · rw [skipNextPlayer_players]
      exact (ctrl_parts (drawCards_ctrl 2 s (s.getNextPlayerIndex none) js)).2.2.2.1
  by_cases h4 : card.value = CValue.wildPlus4
  · rw [effect_wild4 s card pi js h4]
    dsimp only
    split
    · rfl
    · rw [skipNextPlayer_players]
      exact (ctrl_parts (drawCards_ctrl 4 s (s.getNextPlayerIndex none) js)).2.2.2.1
  by_cases h5 : card.value = CValue.num 0
  · by_cases hs : s.settings.allowSpecial07
    · rw [effect_zero_on s card pi js h5 hs]
      exact zeroSwapState_players_length s pi _
    · rw [effect_zero_off s card pi js h5 (Bool.not_eq_true _ ▸ hs)]
      rfl
  by_cases h6 : card.value = CValue.num 7
  · by_cases hs : s.settings.allowSpecial07
    · rw [effect_seven_on s card pi js h6 hs]
    · rw [effect_seven_off s card pi js h6 (Bool.not_eq_true _ ▸ hs)]
      rfl
  by_cases h7 : card.value = CValue.plus12
  · rw [effect_plus12 s card pi js h7]
    dsimp only
    rw [skipNextPlayer_players]
    exact (ctrl_parts (drawCards_ctrl 12 s (s.getNextPlayerIndex (some pi)) js)).2.2.2.1
  rw [effect_other s card pi js h1 h2 h3 h4 h5 h6 h7]
  rfl

theorem get?_lt_length {α : Type} {l : List α} {i : Nat} {a : α}
    (h : l.get? i = some a) : i < l.length := by
  by_contra hc
  push_neg at hc
  rw [List.get?_eq_none.mpr hc] at h
  exact Option.noConfusion h

theorem splice_totalCards (s : GameRoom) (pi ci : Nat) (card : Card) (cc : CColor)
    (cv : CValue) (hpi : pi < s.players.length)
    (hci : ci < (s.players.getD pi default).hand.length) :
    ({ s with
        players := s.players.set pi
          { s.players.getD pi default with
              hand := (s.players.getD pi default).hand.eraseIdx ci },
        discardPile := s.discardPile ++ [card],
        currentColor := cc, currentValue := cv } : GameRoom).totalCards = s.totalCards := by
  unfold GameRoom.totalCards
  dsimp only
  have hh := handsTotal_set s.players pi
    { s.players.getD pi default with
        hand := (s.players.getD pi default).hand.eraseIdx ci } hpi
  have hel := List.length_eraseIdx_add_one hci
  simp only at hh
  simp only [List.length_append, List.length_singleton]
  omega

theorem playCardCore_totalCards (s : GameRoom) (pi ci : Nat) (card : Card)
    (c : Option CColor) (js : List Nat) (hpi : pi < s.players.length)
    (hci : ci < (s.players.getD pi default).hand.length) :
    (s.playCardCore pi ci card c js).2.totalCards = s.totalCards := by
  unfold GameRoom.playCardCore
  dsimp only
  split
  · rfl
  · set s1 : GameRoom := { s with
      players := s.players.set pi
        { s.players.getD pi default with
            hand := (s.players.getD pi default).hand.eraseIdx ci },
      discardPile := s.discardPile ++ [card],
      currentColor := if card.type = CType.wild then c.getD CColor.red else card.color,
      currentValue := card.value } with hs1
    have ht1 : s1.totalCards = s.totalCards :=
      splice_totalCards s pi ci card _ _ hpi hci
    have hpi1 : pi < s1.players.length := by
      rw [hs1]
      simpa using hpi
    split
    · rename_i s2 heq
      have h2 : s2 = (s1.handleCardEffect card pi js).2 := by rw [heq]
      rw [h2, handleCardEffect_totalCards s1 card pi js hpi1, ht1]
    · rename_i s2 heq
      have h2 : s2 = (s1.handleCardEffect card pi js).2 := by rw [heq]
      have hpi2 : pi < s2.players.length := by
        rw [h2, handleCardEffect_players_length]
        exact hpi1
      dsimp only
      rw [checkUnoAfterPlay_totalCards s2 pi hpi2, h2,
        handleCardEffect_totalCards s1 card pi js hpi1, ht1]

theorem flagSet_totalCards (t : GameRoom) (pi : Nat) (b : Bool)
    (hpi : pi < t.players.length) :
    ({ t with players := t.players.set pi
                { t.players.getD pi default with calledUno := b } } : GameRoom).totalCards
      = t.totalCards := by
  unfold GameRoom.totalCards
  dsimp only
  rw [handsTotal_set_flag t.players pi
    { t.players.getD pi default with calledUno := b } hpi rfl]

theorem playCard_totalCards (s : GameRoom) (pid ci : Nat) (c : Option CColor)
    (js : List Nat) : (s.playCard pid ci c js).2.totalCards = s.totalCards := by
  unfold GameRoom.playCard
  dsimp only
  split
  · rfl
  · rename_i pi hidx
    obtain ⟨hpi, -⟩ := findIndex_id s.players pid pi hidx
    split
    · rfl
    · rename_i card hcard
      have hci := get?_lt_length hcard
      split
      · split
        · rw [playCardCore_totalCards
            { s with lastSwapEvent := none, currentPlayer := pi } pi ci card c js hpi hci]
          rfl
        · rfl
      · rw [playCardCore_totalCards
          { s with lastSwapEvent := none } pi ci card c js hpi hci]
        rfl

theorem drawCard_totalCards (s : GameRoom) (pid : Nat) (js : List Nat) :
    (s.drawCard pid js).2.totalCards = s.totalCards := by
  unfold GameRoom.drawCard
  dsimp only
  split
  · rfl
  · rename_i pi hidx
    obtain ⟨hpi, -⟩ := findIndex_id s.players pid pi hidx
    split
    · rfl
    split
    · rfl
    split
    · -- absorb the pending stack
      rw [advanceTurn_totalCards]
      unfold GameRoom.totalCards
      dsimp only
      have hpil : pi < (s.drawCards pi s.stackedDrawCount js).players.length := by
        rw [(ctrl_parts (drawCards_ctrl s.stackedDrawCount s pi js)).2.2.2.1]
        exact hpi
      rw [handsTotal_set_flag (s.drawCards pi s.stackedDrawCount js).players pi
        { (s.drawCards pi s.stackedDrawCount js).players.getD pi default with
            calledUno := false } hpil rfl]
      exact drawCards_totalCards s.stackedDrawCount s pi js hpi
    · -- single voluntary draw: every leaf is `drawCards`, optionally followed
      -- by `advanceTurn` and/or a declare-flag clear
      set s1 : GameRoom := { s with hasDrawnThisTurn := true } with hs1
      have hpi1 : pi < s1.players.length := hpi
      have h2 := drawCards_totalCards 1 s1 pi js hpi1
      have hl2 : (s1.drawCards pi 1 js).players.length = s.players.length :=
        (ctrl_parts (drawCards_ctrl 1 s1 pi js)).2.2.2.1
      split <;> try split
      all_goals try split
      all_goals first
        | exact h2
        | (rw [advanceTurn_totalCards]; exact h2)
        | exact (flagSet_totalCards (s1.drawCards pi 1 js) pi false
            (by rw [hl2]; exact hpi)).trans h2
        | exact (flagSet_totalCards ((s1.drawCards pi 1 js).advanceTurn) pi false
            (by rw [advanceTurn_players, hl2]; exact hpi)).trans
            ((advanceTurn_totalCards (s1.drawCards pi 1 js)).trans h2)

theorem chooseSwapTarget_totalCards (s : GameRoom) (pid tid : Nat) :
    (s.chooseSwapTarget pid tid).2.totalCards = s.totalCards := by
  unfold GameRoom.chooseSwapTarget
  dsimp only
  split
  · rfl
  · split
    · rfl
    · split
      · rename_i pi ti hpidx htidx
        obtain ⟨hpi, -⟩ := findIndex_id s.players pid pi hpidx
        obtain ⟨hti, -⟩ := findIndex_id s.players tid ti htidx
        split
        · rfl
        · dsimp only
          rw [advanceTurn_totalCards]
          exact swapHands_totalCards s pi ti hpi hti
      · rfl

theorem callUno_totalCards (s : GameRoom) (pid : Nat) :
    (s.callUno pid).2.totalCards = s.totalCards := by
  unfold GameRoom.callUno
  dsimp only
  split
  · rfl
  · rename_i pi hidx
    obtain ⟨hpi, -⟩ := findIndex_id s.players pid pi hidx
    split
    · rfl
    · unfold GameRoom.totalCards
      dsimp only
      rw [handsTotal_set_flag s.players pi
        { s.players.getD pi default with calledUno := true } hpi rfl]

theorem catchUnoViolation_totalCards (s : GameRoom) (cid tid : Nat) (js : List Nat) :
    (s.catchUnoViolation cid tid js).2.totalCards = s.totalCards := by
  unfold GameRoom.catchUnoViolation
  dsimp only
  split
  · rename_i ci cui hcidx hcuidx
    obtain ⟨hcui, -⟩ := findIndex_id s.players tid cui hcuidx
    split
    · rfl
    · unfold GameRoom.totalCards
      dsimp only
      have hc2 : cui < (s.drawCards cui 2 js).players.length := by
        rw [(ctrl_parts (drawCards_ctrl 2 s cui js)).2.2.2.1]
        exact hcui
      rw [handsTotal_set_flag (s.drawCards cui 2 js).players cui
        { (s.drawCards cui 2 js).players.getD cui default with calledUno := false }
        hc2 rfl]
      exact drawCards_totalCards 2 s cui js hcui
  · rfl

theorem step_totalCards {s s' : GameRoom} (h : Step s s') :
    s'.totalCards = s.totalCards := by
  cases h with
  | play pid idx c js => exact playCard_totalCards s pid idx c js
  | draw pid js => exact drawCard_totalCards s pid js
  | swapTarget pid tid => exact chooseSwapTarget_totalCards s pid tid
  | uno pid => exact callUno_totalCards s pid
  | catchV cid tid js => exact catchUnoViolation_totalCards s cid tid js

theorem reachable_totalCards {s s' : GameRoom} (h : Reachable s s') :
    s'.totalCards = s.totalCards := by
  induction h with
  | refl => rfl
  | tail _ hbc ih =>
    rw [step_totalCards hbc]
    exact ih

theorem popN_spec : ∀ (n : Nat) (deck h d : List Card), popN n deck = some (h, d) →
    h.length = n ∧ d.length + n = deck.length := by
  intro n
  induction n with
  | zero =>
    intro deck h d hp
    unfold popN at hp
    cases hp
    simp
  | succ m ih =>
    intro deck h d hp
    unfold popN at hp
    rcases hlast : deck.getLast? with _ | c
    · simp only [hlast] at hp
      exact Option.noConfusion hp
    · simp only [hlast] at hp
      rw [Option.map_eq_some'] at hp
      obtain ⟨r, hpm, heq⟩ := hp
      injection heq with hl hr
      subst hl
      subst hr
      obtain ⟨ih1, ih2⟩ := ih deck.dropLast r.1 r.2 hpm
      have hne : deck ≠ [] := by
        intro hnil
        rw [hnil] at hlast
        simp at hlast
      have hdl : 0 < deck.length := List.length_pos.mpr hne
      simp only [List.length_dropLast] at ih2
      constructor
      · simp [ih1]
      · omega

theorem findStarterFuel_le : ∀ (fuel : Nat) (l : List Card) (c : Card)
    (l2 : List Card), findStarterFuel fuel l = some (c, l2) →
    l2.length + 1 ≤ l.length := by
  intro fuel
  induction fuel with
  | zero =>
    intro l c l2 h
    exact Option.noConfusion h
  | succ m ih =>
    intro l c l2 h
    unfold findStarterFuel at h
    split at h
    · exact Option.noConfusion h
    · rename_i c1 hlast
      have hne : l ≠ [] := by
        intro hnil
        rw [hnil] at hlast
        simp at hlast
      have hdl : 0 < l.length := List.length_pos.mpr hne
      split at h
      · cases h
        simp only [List.length_dropLast]
        omega
      · have := ih l.dropLast c l2 h
        simp only [List.length_dropLast] at this
        omega

theorem findStarter_le (l : List Card) (c : Card) (l2 : List Card)
    (h : findStarter l = some (c, l2)) : l2.length + 1 ≤ l.length :=
  findStarterFuel_le l.length l c l2 h

theorem dealAll_spec : ∀ (ps : List Player) (count : Nat) (deck : List Card)
    (ps2 : List Player) (d : List Card), dealAll count ps deck = some (ps2, d) →
    handsTotal ps2 = ps.length * count ∧ d.length + ps.length * count = deck.length := by
  intro ps
  induction ps with
  | nil =>
    intro count deck ps2 d h
    unfold dealAll at h
    cases h
    simp [handsTotal]
  | cons p ps ih =>
    intro count deck ps2 d h
    unfold dealAll at h
    rcases hpop : popN count deck with _ | pr
    · simp only [hpop] at h
      exact Option.noConfusion h
    · obtain ⟨hand1, deck1⟩ := pr
      simp only [hpop] at h
      rw [Option.map_eq_some'] at h
      obtain ⟨r, hda, heq⟩ := h
      injection heq with hl hr
      subst hl
      subst hr
      obtain ⟨ihl, ihr⟩ := ih count deck1 r.1 r.2 hda
      obtain ⟨hp1, hp2⟩ := popN_spec count deck hand1 deck1 hpop
      constructor
      · rw [handsTotal_cons]
        dsimp only
        rw [hp1, ihl]
        simp only [List.length_cons]
        ring
      · simp only [List.length_cons]
        have hmul : (ps.length + 1) * count = ps.length * count + count := by ring
        omega

theorem initRoom_totalCards_le (ps : List (Nat × String)) (st : Settings) (js : List Nat)
    (count : Nat) (s0 : GameRoom) (h : initRoom ps st js count = some s0) :
    s0.totalCards ≤ ((mkRoom ps st).createDeck js).deck.length := by
  unfold initRoom GameRoom.dealCards at h
  rcases hda : dealAll count ((mkRoom ps st).createDeck js).players
      ((mkRoom ps st).createDeck js).deck with _ | pr
  · rw [hda] at h
    simp at h
  · obtain ⟨ps2, deck1⟩ := pr
    rw [hda] at h
    simp only at h
    rcases hfs : findStarter deck1 with _ | pr2
    · rw [hfs] at h
      simp at h
    · obtain ⟨start, deck2⟩ := pr2
      rw [hfs] at h
      simp only at h
      cases h
      obtain ⟨hh, hd⟩ := dealAll_spec _ count _ ps2 deck1 hda
      have hfs2 := findStarter_le deck1 start deck2 hfs
      unfold GameRoom.totalCards
      dsimp only
      simp only [List.length_singleton, hh]
      omega

/- ── C1: conservation of cards ───────────────────────────────────────── -/

set_option maxRecDepth 100000 in
/-- C1 counterexample: the claim "deck + discard + Σ hands equals the size of
the deck produced by `createDeck`" fails on a reachable state.  Under the
shuffle `jsBurn`, `createDeck` yields 108 cards but `dealCards 2` pops a red
Skip while selecting the starter and drops it on the floor, so the very first
reachable state of the match carries only 107 cards. -/
theorem conservation_cex :
    initRoom [(0, "P0"), (1, "P1")] settsPlain jsBurn 2 = some roomBurn ∧
    Reachable roomBurn roomBurn ∧
    ((mkRoom [(0, "P0"), (1, "P1")] settsPlain).createDeck jsBurn).deck.length = 108 ∧
    roomBurn.totalCards = 107 := by
  refine ⟨?_, Relation.ReflTransGen.refl, ?_, ?_⟩ <;> rfl

/-- C1 (amended): for every reachable state of a match,
`deck + discard + Σ hands` equals its value in the post-deal state — it is
invariant under every sequence of `playCard`, `drawCard`, `chooseSwapTarget`,
`callUno` and `catchUnoViolation` operations (with `reshuffleDeck` running
inside their internal draws) — and that value is *at most* the size of the
deck produced by `createDeck`: starter selection may discard action/wild
cards, so equality with the created deck size can fail. -/
theorem conservation_amended (ps : List (Nat × String)) (st : Settings) (js : List Nat)
    (count : Nat) (s0 s : GameRoom) (h0 : initRoom ps st js count = some s0)
    (h : Reachable s0 s) :
    s.totalCards = s0.totalCards ∧
    s0.totalCards ≤ ((mkRoom ps st).createDeck js).deck.length :=
  ⟨reachable_totalCards h, initRoom_totalCards_le ps st js count s0 h0⟩

set_option maxRecDepth 100000 in
/-- Witness for the amended C1 at a concrete dealt room. -/
theorem conservation_amended_witness :
    roomBurn.totalCards = roomBurn.totalCards ∧
    roomBurn.totalCards ≤
      ((mkRoom [(0, "P0"), (1, "P1")] settsPlain).createDeck jsBurn).deck.length :=
  conservation_amended [(0, "P0"), (1, "P1")] settsPlain jsBurn 2 roomBurn roomBurn
    (by rfl) Relation.ReflTransGen.refl

/- ── C7: canPlayCard ─────────────────────────────────────────────────── -/

/-- C7: `canPlayCard` implements exactly the specified legality rule — during
an active stack (stacking enabled, `stackedDrawCount > 0`) only a card whose
value equals the active penalty value (`+2` on `+2`, `Wild+4` on `Wild+4`) is
legal, color irrelevant; otherwise a card is legal iff it is a wild card or
shares the active color or the active value — and it is a pure function of
`(card, activeColor, activeValue, pendingDrawStack, stackingEnabled)`. -/
theorem canPlay_spec :
    (∀ (s : GameRoom) (card : Card),
      s.canPlayCard card =
        if s.settings.allowStacking = true ∧ 0 < s.stackedDrawCount then
          decide (card.value = s.currentValue ∧
            (s.currentValue = CValue.plus2 ∨ s.currentValue = CValue.wildPlus4))
        else
          decide (card.type = CType.wild ∨ card.color = s.currentColor ∨
            card.value = s.currentValue)) ∧
    (∀ (s t : GameRoom) (card : Card), s.currentColor = t.currentColor →
      s.currentValue = t.currentValue → s.stackedDrawCount = t.stackedDrawCount →
      s.settings.allowStacking = t.settings.allowStacking →
      s.canPlayCard card = t.canPlayCard card) := by
  constructor
  · intro s card
    unfold GameRoom.canPlayCard
    by_cases h1 : s.settings.allowStacking = true
    · by_cases h2 : 0 < s.stackedDrawCount
      · rw [if_pos (by simp [h1, h2]), if_pos ⟨h1, h2⟩]
        rw [Bool.eq_iff_iff]
        simp only [Bool.or_eq_true, Bool.and_eq_true, beq_iff_eq, decide_eq_true_eq]
        constructor
        · rintro (⟨ha, hb⟩ | ⟨ha, hb⟩)
          · exact ⟨by rw [ha, hb], Or.inl ha⟩
          · exact ⟨by rw [ha, hb], Or.inr ha⟩
        · rintro ⟨hq, hp | hp⟩
          · exact Or.inl ⟨hp, by rw [hq, hp]⟩
          · exact Or.inr ⟨hp, by rw [hq, hp]⟩
      · rw [if_neg (by simp [h2]), if_neg (by tauto)]
        rw [Bool.eq_iff_iff]
        simp
        tauto
    · have h1f : s.settings.allowStacking = false := by
        cases hb : s.settings.allowStacking
        · rfl
        · exact absurd hb h1
      rw [if_neg (by simp [h1f]), if_neg (by tauto)]
      rw [Bool.eq_iff_iff]
      simp
      tauto
  · intro s t card hc hv hst hflag
    unfold GameRoom.canPlayCard
    rw [hc, hv, hst, hflag]

/-- Witness for C7's purity clause: two rooms differing only in the
once-per-turn draw flag agree on legality. -/
theorem canPlay_spec_witness :
    roomJ.canPlayCard w4card = roomG.canPlayCard w4card :=
  canPlay_spec.2 roomJ roomG w4card rfl rfl rfl rfl

/- ── C3: rejected plays and state mutation ───────────────────────────── -/

theorem playCardCore_reject (t : GameRoom) (pi ci : Nat) (card : Card)
    (c : Option CColor) (js : List Nat) (h : ¬ t.canPlayCard card = true) :
    t.playCardCore pi ci card c js = (perr Err.cantPlay, t) := by
  unfold GameRoom.playCardCore
  rw [if_pos h]

theorem playCardCore_success (t : GameRoom) (pi ci : Nat) (card : Card)
    (c : Option CColor) (js : List Nat) (h : t.canPlayCard card = true) :
    (t.playCardCore pi ci card c js).1.success = true := by
  unfold GameRoom.playCardCore
  rw [if_neg (by simp [h])]
  dsimp only
  split <;> rfl

/-- C3 counterexample: with stacking and jump-in enabled, an active `+2`
stack and `P1` (not the current player) holding a `Wild+4`, `playCard` is
rejected with card-not-playable, yet `currentPlayerIndex` has been mutated
from 0 to the actor's index 1. -/
theorem reject_mutation_cex :
    roomJ.currentPlayer = 0 ∧
    (roomJ.playCard 1 0 none []).1.success = false ∧
    (roomJ.playCard 1 0 none []).2.currentPlayer = 1 := by
  decide

/-- C3 (amended): a failed `playCard` leaves every spec `MatchState` field
except `currentPlayerIndex` unchanged, and `currentPlayerIndex` itself is
unchanged except on the one path where an accepted jump-in (feature enabled
and jump-in test passed) is then rejected by `canPlay` — there the failure
leaves `currentPlayerIndex` reassigned to the actor. -/
theorem reject_mutation_amended (s : GameRoom) (pid idx : Nat) (c : Option CColor)
    (js : List Nat) (h : (s.playCard pid idx c js).1.success = false) :
    coreExceptTurn (s.playCard pid idx c js).2 = coreExceptTurn s ∧
    ((s.playCard pid idx c js).2.currentPlayer = s.currentPlayer ∨
      (∃ i, findIndex (fun p => p.id == pid) s.players = some i ∧
        i ≠ s.currentPlayer ∧ s.settings.allowJumpIn = true ∧
        (s.playCard pid idx c js).2.currentPlayer = i ∧
        (s.playCard pid idx c js).1.error = some Err.cantPlay)) := by
  unfold GameRoom.playCard at h ⊢
  dsimp only at h ⊢
  rcases hidx : findIndex (fun p => p.id == pid) s.players with _ | pi
  · simp only [hidx] at h ⊢
    exact ⟨rfl, Or.inl (by simp)⟩
  · simp only [hidx] at h ⊢
    rcases hcard : (s.players.getD pi default).hand.get? idx with _ | card
    · simp only [hcard] at h ⊢
      exact ⟨rfl, Or.inl (by simp)⟩
    · simp only [hcard] at h ⊢
      by_cases hne : pi ≠ s.currentPlayer
      · rw [if_pos hne] at h ⊢
        by_cases hjump : (s.settings.allowJumpIn &&
            ({ s with lastSwapEvent := none } : GameRoom).isJumpIn card) = true
        · rw [if_pos hjump] at h ⊢
          by_cases hcp :
              ({ s with lastSwapEvent := none, currentPlayer := pi } : GameRoom).canPlayCard
                card = true
          · exfalso
            have hsucc := playCardCore_success
              { s with lastSwapEvent := none, currentPlayer := pi } pi idx card c js hcp
            rw [hsucc] at h
            exact Bool.noConfusion h
          · rw [playCardCore_reject
              { s with lastSwapEvent := none, currentPlayer := pi } pi idx card c js hcp]
            refine ⟨rfl, Or.inr ⟨pi, by simp, hne, ?_, by simp, rfl⟩⟩
            exact (Bool.and_eq_true .. ▸ hjump).1
        · rw [if_neg hjump] at h ⊢
          exact ⟨rfl, Or.inl (by simp)⟩
      · rw [if_neg hne] at h ⊢
        by_cases hcp :
            ({ s with lastSwapEvent := none } : GameRoom).canPlayCard card = true
        · exfalso
          have hsucc := playCardCore_success
            { s with lastSwapEvent := none } pi idx card c js hcp
          rw [hsucc] at h
          exact Bool.noConfusion h
        · rw [playCardCore_reject { s with lastSwapEvent := none } pi idx card c js hcp]
          exact ⟨rfl, Or.inl (by simp)⟩

/-- Witness for the amended C3 at the concrete rejected jump-in. -/
theorem reject_mutation_amended_witness :
    coreExceptTurn (roomJ.playCard 1 0 none []).2 = coreExceptTurn roomJ ∧
    ((roomJ.playCard 1 0 none []).2.currentPlayer = roomJ.currentPlayer ∨
      (∃ i, findIndex (fun p => p.id == 1) roomJ.players = some i ∧
        i ≠ roomJ.currentPlayer ∧ roomJ.settings.allowJumpIn = true ∧
        (roomJ.playCard 1 0 none []).2.currentPlayer = i ∧
        (roomJ.playCard 1 0 none []).1.error = some Err.cantPlay)) :=
  reject_mutation_amended roomJ 1 0 none [] (by decide)

/- ── C5: jump-in acceptance ──────────────────────────────────────────── -/

/-- C5 counterexample: with jump-in enabled, no pending stack and a red 5 as
the active card, the non-current player `P1` plays a `Wild+4` — a card that
is neither an exact duplicate of the active card (different value) nor a
penalty card whose color matches the active color (its color is `wild`) —
and the play is accepted. -/
theorem jumpIn_cex :
    roomW.settings.allowJumpIn = true ∧
    roomW.currentPlayer = 0 ∧
    findIndex (fun p => p.id == 1) roomW.players = some 1 ∧
    (roomW.players.getD 1 default).hand.get? 0 = some w4card ∧
    w4card.value ≠ roomW.currentValue ∧
    w4card.color ≠ roomW.currentColor ∧
    (roomW.playCard 1 0 (some CColor.blue) []).1.success = true := by
  decide

/-- C5 (amended): for a play attempt by a non-current actor holding `card`:
if jump-in is disabled or the code's jump-in test fails, the call fails with
not-your-turn and only the scratch `_lastSwapEvent` field is touched; if
jump-in is enabled and the test passes — the card is a `Wild+4`
(unconditionally), a `+2` matching the active color, or a number card
matching both the active color and value — the call proceeds exactly as a
play by the current player after `currentPlayerIndex` has been reassigned to
the actor (so Skip/Reverse duplicates are never jump-ins, and a `Wild+4`
jump-in needs no match at all). -/
theorem jumpIn_amended (s : GameRoom) (pid idx : Nat) (c : Option CColor)
    (js : List Nat) (i : Nat) (card : Card)
    (hidx : findIndex (fun p => p.id == pid) s.players = some i)
    (hcard : (s.players.getD i default).hand.get? idx = some card)
    (hne : i ≠ s.currentPlayer) :
    (s.isJumpIn card =
      (card.value == CValue.wildPlus4 ||
        (card.value == CValue.plus2 && card.color == s.currentColor) ||
        (card.type == CType.number && card.color == s.currentColor &&
          card.value == s.currentValue))) ∧
    ((s.settings.allowJumpIn && s.isJumpIn card) = false →
      s.playCard pid idx c js =
        (perr Err.notYourTurn, { s with lastSwapEvent := none })) ∧
    ((s.settings.allowJumpIn && s.isJumpIn card) = true →
      s.playCard pid idx c js =
        GameRoom.playCardCore { s with lastSwapEvent := none, currentPlayer := i }
          i idx card c js) := by
  have hrw : ({ s with lastSwapEvent := none } : GameRoom).isJumpIn card =
      s.isJumpIn card := rfl
  refine ⟨rfl, ?_, ?_⟩ <;> intro hj <;>
    · unfold GameRoom.playCard
      dsimp only
      simp only [hidx, hcard]
      rw [if_pos hne]
      rw [show (s.settings.allowJumpIn &&
        ({ s with lastSwapEvent := none } : GameRoom).isJumpIn card) =
          (s.settings.allowJumpIn && s.isJumpIn card) from rfl, hj]
      simp

/-- Witness for the amended C5: the concrete `Wild+4` jump-in is processed
as a play by the reassigned current player. -/
theorem jumpIn_amended_witness :
    (roomW.isJumpIn w4card =
      (w4card.value == CValue.wildPlus4 ||
        (w4card.value == CValue.plus2 && w4card.color == roomW.currentColor) ||
        (w4card.type == CType.number && w4card.color == roomW.currentColor &&
          w4card.value == roomW.currentValue))) ∧
    ((roomW.settings.allowJumpIn && roomW.isJumpIn w4card) = false →
      roomW.playCard 1 0 (some CColor.blue) [] =
        (perr Err.notYourTurn, { roomW with lastSwapEvent := none })) ∧
    ((roomW.settings.allowJumpIn && roomW.isJumpIn w4card) = true →
      roomW.playCard 1 0 (some CColor.blue) [] =
        GameRoom.playCardCore { roomW with lastSwapEvent := none, currentPlayer := 1 }
          1 0 w4card (some CColor.blue) []) :=
  jumpIn_amended roomW 1 0 (some CColor.blue) [] 1 w4card (by decide) (by decide)
    (by decide)

/- ── C6: drawCard ────────────────────────────────────────────────────── -/

theorem getNextPlayerIndex_ext {a b : GameRoom} (h1 : a.currentPlayer = b.currentPlayer)
    (h2 : a.direction = b.direction) (h3 : a.players.length = b.players.length) :
    a.getNextPlayerIndex none = b.getNextPlayerIndex none := by
  unfold GameRoom.getNextPlayerIndex
  rw [h1, h2, h3]

theorem advanceTurn_currentPlayer (s : GameRoom) :
    s.advanceTurn.currentPlayer = s.getNextPlayerIndex none := rfl

theorem drawGate_hasDrawn (s : GameRoom) (pid : Nat) (js : List Nat) (pi : Nat)
    (hidx : findIndex (fun p => p.id == pid) s.players = some pi)
    (hcur : pi = s.currentPlayer) (hd : s.hasDrawnThisTurn = true) :
    s.drawCard pid js = ({ success := false, error := some Err.drawOncePerTurn }, s) := by
  unfold GameRoom.drawCard
  simp only [hidx]
  rw [if_neg (by simp [hcur]), if_pos hd]

theorem drawGate_stacked (s : GameRoom) (pid : Nat) (js : List Nat) (pi : Nat)
    (hidx : findIndex (fun p => p.id == pid) s.players = some pi)
    (hcur : pi = s.currentPlayer) (hd : s.hasDrawnThisTurn = false)
    (hst : 0 < s.stackedDrawCount) :
    (s.drawCard pid js).1 =
      { success := true, drewStacked := true, stackCount := s.stackedDrawCount } ∧
    (s.drawCard pid js).2.stackedDrawCount = 0 ∧
    (s.drawCard pid js).2.currentPlayer = s.getNextPlayerIndex none ∧
    ((s.drawCard pid js).2.players.getD pi default).calledUno = false ∧
    (s.stackedDrawCount ≤ s.deck.length →
      ((s.drawCard pid js).2.players.getD pi default).hand.length =
        (s.players.getD pi default).hand.length + s.stackedDrawCount) := by
  have hpi : pi < s.players.length := (findIndex_id s.players pid pi hidx).1
  have hc := ctrl_parts (drawCards_ctrl s.stackedDrawCount s pi js)
  have hpil : pi < (s.drawCards pi s.stackedDrawCount js).players.length := by
    rw [hc.2.2.2.1]
    exact hpi
  unfold GameRoom.drawCard
  simp only [hidx]
  rw [if_neg (by simp [hcur]), if_neg (by simp [hd]), if_pos hst]
  dsimp only
  refine ⟨rfl, rfl, ?_, ?_, ?_⟩
  · rw [advanceTurn_currentPlayer]
    apply getNextPlayerIndex_ext
    · exact hc.1
    · exact hc.2.1
    · dsimp only
      rw [List.length_set]
      exact hc.2.2.2.1
  · rw [advanceTurn_players]
    dsimp only
    rw [getD_set_self (s.drawCards pi s.stackedDrawCount js).players pi _ hpil]
  · intro hle
    rw [advanceTurn_players]
    dsimp only
    rw [getD_set_self (s.drawCards pi s.stackedDrawCount js).players pi _ hpil]
    exact drawCards_hand_add s.stackedDrawCount s pi js hpi hle

theorem drawGate_single (s : GameRoom) (pid : Nat) (js : List Nat) (pi : Nat)
    (hidx : findIndex (fun p => p.id == pid) s.players = some pi)
    (hcur : pi = s.currentPlayer) (hd : s.hasDrawnThisTurn = false)
    (hst : s.stackedDrawCount = 0) :
    (s.drawCard pid js).1.success = true ∧
    (s.drawCard pid js).1.cardsDrawn = 1 ∧
    (s.drawCard pid js).2.currentPlayer =
      (if (s.drawCard pid js).1.canPlayDrawn = true then s.currentPlayer
       else s.getNextPlayerIndex none) ∧
    (s.deck ≠ [] →
      ((s.drawCard pid js).2.players.getD pi default).hand.length =
        (s.players.getD pi default).hand.length + 1) ∧
    (1 < ((s.drawCard pid js).2.players.getD pi default).hand.length →
      ((s.drawCard pid js).2.players.getD pi default).calledUno = false) := by
  have hpi : pi < s.players.length := (findIndex_id s.players pid pi hidx).1
  have hc := ctrl_parts (drawCards_ctrl 1 { s with hasDrawnThisTurn := true } pi js)
  have hpil : pi < (GameRoom.drawCards { s with hasDrawnThisTurn := true } pi 1 js).players.length := by
    rw [hc.2.2.2.1]
    exact hpi
  unfold GameRoom.drawCard
  simp only [hidx]
  rw [if_neg (by simp [hcur]), if_neg (by simp [hd]), if_neg (by simp [hst])]
  dsimp only
  refine ⟨rfl, rfl, ?_, ?_, ?_⟩
  · -- the turn advances exactly when the drawn card is not immediately legal
    simp only [apply_ite GameRoom.currentPlayer]
    try dsimp only
    simp only [apply_ite GameRoom.currentPlayer, ite_self, advanceTurn_currentPlayer]
    split
    · exact hc.1
    · apply getNextPlayerIndex_ext
      · exact hc.1
      · exact hc.2.1
      · exact hc.2.2.2.1
  · -- exactly one card is drawn when one is available
    intro hne
    have hand1 := drawCards_hand_add 1 { s with hasDrawnThisTurn := true } pi js hpi
      (by
        have : 0 < s.deck.length := List.length_pos.mpr hne
        simpa using this)
    simp only [apply_ite GameRoom.players]
    try dsimp only
    simp only [apply_ite GameRoom.players, ite_self, advanceTurn_players]
    split
    · rw [getD_set_self (GameRoom.drawCards { s with hasDrawnThisTurn := true } pi 1 js).players
        pi _ hpil]
      exact hand1
    · exact hand1
  · -- a draw that leaves more than one card clears the declare flag
    simp only [apply_ite GameRoom.players]
    try dsimp only
    simp only [apply_ite GameRoom.players, ite_self, advanceTurn_players]
    split
    · intro hgt
      rw [getD_set_self (GameRoom.drawCards { s with hasDrawnThisTurn := true } pi 1 js).players
        pi _ hpil]
    · intro hgt
      exact absurd hgt (by assumption)

/-- C6 counterexample: with a pending stack of 2 but `hasDrawnThisTurn`
already set, the current player's `drawCard` is rejected with the
once-per-turn error — the gate is checked *before* the stacked branch, so
it does apply to stack absorption, contradicting the spec. -/
theorem drawGate_cex :
    0 < roomG.stackedDrawCount ∧ roomG.hasDrawnThisTurn = true ∧
    findIndex (fun p => p.id == 0) roomG.players = some roomG.currentPlayer ∧
    roomG.drawCard 0 [] = ({ success := false, error := some Err.drawOncePerTurn }, roomG) := by
  decide

/-- C6 (amended): for a `drawCard` call by the current player:
(i) if `hasDrawnThisTurn` is set the call fails with the once-per-turn
error and the state is unchanged — *even when a stack is pending*;
(ii) otherwise, if `stackedDrawCount > 0`, the whole stack is absorbed in
one call (hand grows by the stack size whenever the deck suffices), the
stack resets to 0, the actor's declare flag is cleared and the turn
advances; (iii) otherwise exactly one card is drawn (hand grows by one when
the deck is nonempty), the turn advances iff the drawn card is not
immediately legal under `canPlayCard`, and the actor's declare flag is
cleared whenever the resulting hand exceeds one card. -/
theorem drawCard_amended (s : GameRoom) (pid : Nat) (js : List Nat) (pi : Nat)
    (hidx : findIndex (fun p => p.id == pid) s.players = some pi)
    (hcur : pi = s.currentPlayer) :
    (s.hasDrawnThisTurn = true →
      s.drawCard pid js = ({ success := false, error := some Err.drawOncePerTurn }, s)) ∧
    (s.hasDrawnThisTurn = false → 0 < s.stackedDrawCount →
      (s.drawCard pid js).1 =
        { success := true, drewStacked := true, stackCount := s.stackedDrawCount } ∧
      (s.drawCard pid js).2.stackedDrawCount = 0 ∧
      (s.drawCard pid js).2.currentPlayer = s.getNextPlayerIndex none ∧
      ((s.drawCard pid js).2.players.getD pi default).calledUno = false ∧
      (s.stackedDrawCount ≤ s.deck.length →
        ((s.drawCard pid js).2.players.getD pi default).hand.length =
          (s.players.getD pi default).hand.length + s.stackedDrawCount)) ∧
    (s.hasDrawnThisTurn = false → s.stackedDrawCount = 0 →
      (s.drawCard pid js).1.success = true ∧
      (s.drawCard pid js).1.cardsDrawn = 1 ∧
      (s.drawCard pid js).2.currentPlayer =
        (if (s.drawCard pid js).1.canPlayDrawn = true then s.currentPlayer
         else s.getNextPlayerIndex none) ∧
      (s.deck ≠ [] →
        ((s.drawCard pid js).2.players.getD pi default).hand.length =
          (s.players.getD pi default).hand.length + 1) ∧
      (1 < ((s.drawCard pid js).2.players.getD pi default).hand.length →
        ((s.drawCard pid js).2.players.getD pi default).calledUno = false)) :=
  ⟨fun hd => drawGate_hasDrawn s pid js pi hidx hcur hd,
   fun hd hst => drawGate_stacked s pid js pi hidx hcur hd hst,
   fun hd hst => drawGate_single s pid js pi hidx hcur hd hst⟩

theorem drawCard_amended_witness :
    findIndex (fun p => p.id == 0) roomJ.players = some 0 ∧ 0 = roomJ.currentPlayer ∧
    roomJ.hasDrawnThisTurn = false ∧ 0 < roomJ.stackedDrawCount ∧
    (roomJ.drawCard 0 []).1 =
      { success := true, drewStacked := true, stackCount := roomJ.stackedDrawCount } ∧
    (roomJ.drawCard 0 []).2.stackedDrawCount = 0 ∧
    (roomJ.drawCard 0 []).2.currentPlayer = roomJ.getNextPlayerIndex none :=
  ⟨by decide, by decide, by decide, by decide,
   ((drawCard_amended roomJ 0 [] 0 (by decide) (by decide)).2.1 (by decide) (by decide)).1,
   ((drawCard_amended roomJ 0 [] 0 (by decide) (by decide)).2.1 (by decide) (by decide)).2.1,
   ((drawCard_amended roomJ 0 [] 0 (by decide) (by decide)).2.1 (by decide) (by decide)).2.2.1⟩

/- ── C8: the special-0 swap ──────────────────────────────────────────── -/

theorem swapHands_getD_fst (s : GameRoom) (a b : Nat) (ha : a < s.players.length)
    (hne : b ≠ a) :
    (s.swapHands a b).players.getD a default =
      { s.players.getD a default with hand := (s.players.getD b default).hand } := by
  unfold GameRoom.swapHands
  dsimp only
  rw [getD_set_ne _ b a _ hne]
  rw [getD_set_self s.players a _ ha]

theorem swapHands_getD_snd (s : GameRoom) (a b : Nat) (hb : b < s.players.length) :
    (s.swapHands a b).players.getD b default =
      { s.players.getD b default with hand := (s.players.getD a default).hand } := by
  unfold GameRoom.swapHands
  dsimp only
  rw [getD_set_self _ b _ (by rw [List.length_set]; exact hb)]

theorem swapHands_players_length (s : GameRoom) (a b : Nat) :
    (s.swapHands a b).players.length = s.players.length := by
  unfold GameRoom.swapHands
  dsimp only
  rw [List.length_set, List.length_set]

theorem zeroSwapState_getD (s : GameRoom) (pi ni : Nat)
    (hpi : pi < s.players.length) (hnil : ni < s.players.length) (hne : ni ≠ pi) :
    (s.zeroSwapState pi ni).players.getD pi default =
      { s.players.getD pi default with
        hand := (s.players.getD ni default).hand, calledUno := false } ∧
    (s.zeroSwapState pi ni).players.getD ni default =
      { s.players.getD ni default with
        hand := (s.players.getD pi default).hand, calledUno := false } := by
  have hsw1 := swapHands_getD_fst s pi ni hpi hne
  have hsw2 := swapHands_getD_snd s pi ni hnil
  have hlen := swapHands_players_length s pi ni
  unfold GameRoom.zeroSwapState
  dsimp only
  constructor
  · rw [getD_set_ne _ ni pi _ hne]
    rw [getD_set_self (s.swapHands pi ni).players pi _ (by rw [hlen]; exact hpi)]
    rw [hsw1]
  · rw [getD_set_self _ ni _ (by rw [List.length_set, hlen]; exact hnil)]
    rw [hsw2]

/-- C8 counterexample: `P0` plays a red 0 with special-0 enabled; after the
swap `P1` holds exactly one card, yet `P1`'s declare flag is *not* re-set —
the engine only records the name in the swap event's `unoTransfer` field. -/
theorem zeroSwap_cex :
    roomZ.settings.allowSpecial07 = true ∧
    (roomZ.players.getD 0 default).hand.get? 0 = some (rnum 0) ∧
    (rnum 0).value = CValue.num 0 ∧
    (roomZ.playCard 0 0 none []).1.success = true ∧
    ((roomZ.playCard 0 0 none []).2.players.getD 1 default).hand.length = 1 ∧
    ((roomZ.playCard 0 0 none []).2.players.getD 1 default).calledUno = false ∧
    (roomZ.playCard 0 0 none []).2.lastSwapEvent = some
      { swapperName := "P0", targetName := "P1", eventType := "0",
        unoTransfer := some "P1" } := by
  decide

/-- C8 (amended): playing a 0 with special-0 enabled swaps the actor's hand
with the next player's (direction-aware: the partner is
`getNextPlayerIndex(playerIndex)`), clears *both* participants' declare
flags — the flag of whichever participant ends the swap holding exactly one
card stays cleared and is only *named* in the recorded swap event's
`unoTransfer` field, never re-set — and then the turn advances once. -/
theorem zeroSwap_amended (s : GameRoom) (card : Card) (pi ni : Nat) (js : List Nat)
    (hv : card.value = CValue.num 0) (hsp : s.settings.allowSpecial07 = true)
    (hni : ni = s.getNextPlayerIndex (some pi))
    (hpi : pi < s.players.length) (hnil : ni < s.players.length) (hne : ni ≠ pi) :
    s.handleCardEffect card pi js = (false, (s.zeroSwapState pi ni).advanceTurn) ∧
    (s.zeroSwapState pi ni).players.getD pi default =
      { s.players.getD pi default with
        hand := (s.players.getD ni default).hand, calledUno := false } ∧
    (s.zeroSwapState pi ni).players.getD ni default =
      { s.players.getD ni default with
        hand := (s.players.getD pi default).hand, calledUno := false } ∧
    (s.zeroSwapState pi ni).lastSwapEvent = some
      { swapperName := ((s.zeroSwapState pi ni).players.getD pi default).name,
        targetName := ((s.zeroSwapState pi ni).players.getD ni default).name,
        eventType := "0",
        unoTransfer :=
          if ((s.zeroSwapState pi ni).players.getD ni default).hand.length = 1 then
            some ((s.zeroSwapState pi ni).players.getD ni default).name
          else if ((s.zeroSwapState pi ni).players.getD pi default).hand.length = 1 then
            some ((s.zeroSwapState pi ni).players.getD pi default).name
          else none } ∧
    ((s.zeroSwapState pi ni).advanceTurn).currentPlayer =
      (s.zeroSwapState pi ni).getNextPlayerIndex none := by
  obtain ⟨h1, h2⟩ := zeroSwapState_getD s pi ni hpi hnil hne
  refine ⟨?_, h1, h2, rfl, rfl⟩
  rw [hni]
  exact effect_zero_on s card pi js hv hsp

theorem zeroSwap_amended_witness :
    (rnum 0).value = CValue.num 0 ∧ roomZ.settings.allowSpecial07 = true ∧
    (1 : Nat) = roomZ.getNextPlayerIndex (some 0) ∧
    0 < roomZ.players.length ∧ 1 < roomZ.players.length ∧ (1 : Nat) ≠ 0 ∧
    roomZ.handleCardEffect (rnum 0) 0 [] =
      (false, (roomZ.zeroSwapState 0 1).advanceTurn) ∧
    (roomZ.zeroSwapState 0 1).players.getD 0 default =
      { roomZ.players.getD 0 default with
        hand := (roomZ.players.getD 1 default).hand, calledUno := false } ∧
    (roomZ.zeroSwapState 0 1).players.getD 1 default =
      { roomZ.players.getD 1 default with
        hand := (roomZ.players.getD 0 default).hand, calledUno := false } :=
  ⟨by decide, by decide, by decide, by decide, by decide, by decide,
   (zeroSwap_amended roomZ (rnum 0) 0 1 [] (by decide) (by decide) (by decide)
     (by decide) (by decide) (by decide)).1,
   (zeroSwap_amended roomZ (rnum 0) 0 1 [] (by decide) (by decide) (by decide)
     (by decide) (by decide) (by decide)).2.1,
   (zeroSwap_amended roomZ (rnum 0) 0 1 [] (by decide) (by decide) (by decide)
     (by decide) (by decide) (by decide)).2.2.1⟩

/- ── C10: playing a 7 as the last card ───────────────────────────────── -/

theorem playSeven_core (s : GameRoom) (pid i : Nat) (card : Card) (c : Option CColor)
    (js : List Nat)
    (hidx : findIndex (fun p => p.id == pid) s.players = some i)
    (hcur : i = s.currentPlayer)
    (hhand : (s.players.getD i default).hand = [card])
    (hv : card.value = CValue.num 7)
    (hsp : s.settings.allowSpecial07 = true)
    (hcp : s.canPlayCard card = true) :
    (s.playCard pid 0 c js).1 =
      { success := true, needSwapTarget := true, winner := none } ∧
    (s.playCard pid 0 c js).2.pendingSwap7 = some pid ∧
    (s.playCard pid 0 c js).2.currentPlayer = s.currentPlayer ∧
    ((s.playCard pid 0 c js).2.players.getD i default).hand = [] := by
  have hpi : i < s.players.length := (findIndex_id s.players pid i hidx).1
  have hpid : (s.players.getD i default).id = pid := (findIndex_id s.players pid i hidx).2
  have hcard : (s.players.getD i default).hand.get? 0 = some card := by
    rw [hhand]
    rfl
  unfold GameRoom.playCard
  dsimp only
  simp only [hidx, hcard]
  rw [if_neg (by simp [hcur])]
  unfold GameRoom.playCardCore
  rw [if_neg (by
    simp [show GameRoom.canPlayCard { s with lastSwapEvent := none } card =
      s.canPlayCard card from rfl, hcp])]
  dsimp only
  rw [effect_seven_on
    { players := s.players.set i
        { s.players.getD i default with
          hand := (s.players.getD i default).hand.eraseIdx 0 },
      deck := s.deck, discardPile := s.discardPile ++ [card],
      currentPlayer := s.currentPlayer,
      currentColor := if card.type = CType.wild then c.getD CColor.red else card.color,
      currentValue := card.value, direction := s.direction,
      stackedDrawCount := s.stackedDrawCount, hasDrawnThisTurn := s.hasDrawnThisTurn,
      settings := s.settings, pendingSwap7 := s.pendingSwap7, lastSwapEvent := none }
    card i js hv hsp]
  dsimp only
  refine ⟨rfl, ?_, rfl, ?_⟩
  · dsimp only
    rw [getD_set_self s.players i _ hpi]
    exact congrArg some hpid
  · dsimp only
    rw [getD_set_self s.players i _ hpi]
    dsimp only
    rw [hhand]
    rfl

theorem swapTarget_success (t : GameRoom) (pid tid a b : Nat)
    (hp7 : t.pendingSwap7 = some pid)
    (hpa : findIndex (fun p => p.id == pid) t.players = some a)
    (htb : findIndex (fun p => p.id == tid) t.players = some b)
    (hab : a ≠ b) :
    (t.chooseSwapTarget pid tid).1.success = true ∧
    (t.chooseSwapTarget pid tid).1.error = none ∧
    (t.chooseSwapTarget pid tid).2 =
      ({ t.swapHands a b with pendingSwap7 := none }).advanceTurn ∧
    ((t.chooseSwapTarget pid tid).2.players.getD a default).hand =
      (t.players.getD b default).hand ∧
    ((t.chooseSwapTarget pid tid).2.players.getD b default).hand =
      (t.players.getD a default).hand := by
  have ha : a < t.players.length := (findIndex_id t.players pid a hpa).1
  have hb : b < t.players.length := (findIndex_id t.players tid b htb).1
  have hsw1 := swapHands_getD_fst t a b ha (Ne.symm hab)
  have hsw2 := swapHands_getD_snd t a b hb
  unfold GameRoom.chooseSwapTarget
  simp only [hp7]
  rw [if_neg (by simp)]
  simp only [hpa, htb]
  rw [if_neg hab]
  dsimp only
  refine ⟨rfl, rfl, rfl, ?_, ?_⟩
  · rw [advanceTurn_players]
    dsimp only
    rw [hsw1]
  · rw [advanceTurn_players]
    dsimp only
    rw [hsw2]

/-- C10: a current-player play of a 7 as the last card of the hand (special-7
enabled) returns `needSwapTarget` with `winner := none` — not a win — keeps
the turn, empties the hand and records the pending swap; the follow-up
successful `chooseSwapTarget` returns a `SwapTargetResult` (a result type
with no winner field at all, `error := none`) and hands the actor the chosen
target's former hand.  Emptying one's hand with a 7 therefore never produces
a win report. -/
theorem sevenLast_no_win (s t : GameRoom) (pid tid i a b : Nat) (card : Card)
    (c : Option CColor) (js : List Nat)
    (hidx : findIndex (fun p => p.id == pid) s.players = some i)
    (hcur : i = s.currentPlayer)
    (hhand : (s.players.getD i default).hand = [card])
    (hv : card.value = CValue.num 7)
    (hsp : s.settings.allowSpecial07 = true)
    (hcp : s.canPlayCard card = true)
    (hp7 : t.pendingSwap7 = some pid)
    (hpa : findIndex (fun p => p.id == pid) t.players = some a)
    (htb : findIndex (fun p => p.id == tid) t.players = some b)
    (hab : a ≠ b) :
    ((s.playCard pid 0 c js).1 =
        { success := true, needSwapTarget := true, winner := none } ∧
      (s.playCard pid 0 c js).2.pendingSwap7 = some pid ∧
      (s.playCard pid 0 c js).2.currentPlayer = s.currentPlayer ∧
      ((s.playCard pid 0 c js).2.players.getD i default).hand = []) ∧
    ((t.chooseSwapTarget pid tid).1.success = true ∧
      (t.chooseSwapTarget pid tid).1.error = none ∧
      (t.chooseSwapTarget pid tid).2 =
        ({ t.swapHands a b with pendingSwap7 := none }).advanceTurn ∧
      ((t.chooseSwapTarget pid tid).2.players.getD a default).hand =
        (t.players.getD b default).hand ∧
      ((t.chooseSwapTarget pid tid).2.players.getD b default).hand =
        (t.players.getD a default).hand) :=
  ⟨playSeven_core s pid i card c js hidx hcur hhand hv hsp hcp,
   swapTarget_success t pid tid a b hp7 hpa htb hab⟩

theorem sevenLast_no_win_witness :
    ((roomS7.playCard 0 0 none []).1 =
        { success := true, needSwapTarget := true, winner := none } ∧
      (roomS7.playCard 0 0 none []).2.pendingSwap7 = some 0 ∧
      (roomS7.playCard 0 0 none []).2.currentPlayer = roomS7.currentPlayer ∧
      ((roomS7.playCard 0 0 none []).2.players.getD 0 default).hand = []) ∧
    (((roomS7.playCard 0 0 none []).2.chooseSwapTarget 0 1).1.success = true ∧
      ((roomS7.playCard 0 0 none []).2.chooseSwapTarget 0 1).1.error = none ∧
      ((roomS7.playCard 0 0 none []).2.chooseSwapTarget 0 1).2 =
        ({ (roomS7.playCard 0 0 none []).2.swapHands 0 1 with
           pendingSwap7 := none }).advanceTurn ∧
      (((roomS7.playCard 0 0 none []).2.chooseSwapTarget 0 1).2.players.getD 0
          default).hand =
        ((roomS7.playCard 0 0 none []).2.players.getD 1 default).hand ∧
      (((roomS7.playCard 0 0 none []).2.chooseSwapTarget 0 1).2.players.getD 1
          default).hand =
        ((roomS7.playCard 0 0 none []).2.players.getD 0 default).hand) :=
  sevenLast_no_win roomS7 ((roomS7.playCard 0 0 none []).2) 0 1 0 0 1 (rnum 7) none []
    (by decide) (by decide) (by decide) (by decide) (by decide) (by decide)
    (by decide) (by decide) (by decide) (by decide)

/- ── C4: the declare-flag invariant ──────────────────────────────────── -/

theorem checkUnoAfterPlay_post (t : GameRoom) (pi : Nat) (hpi : pi < t.players.length) :
    ((t.checkUnoAfterPlay pi).players.getD pi default).calledUno = true →
    ((t.checkUnoAfterPlay pi).players.getD pi default).hand.length = 1 := by
  unfold GameRoom.checkUnoAfterPlay
  dsimp only
  split
  · dsimp only
    rw [getD_set_self t.players pi _ hpi]
    intro hflag
    simp at hflag
  · intro _
    omega

theorem playCardCore_actor_flag (t : GameRoom) (pi ci : Nat) (card : Card)
    (c : Option CColor) (js : List Nat) (hpi : pi < t.players.length) :
    (t.playCardCore pi ci card c js).1.success = true →
    (t.playCardCore pi ci card c js).1.needSwapTarget = false →
    ((t.playCardCore pi ci card c js).2.players.getD pi default).calledUno = true →
    ((t.playCardCore pi ci card c js).2.players.getD pi default).hand.length = 1 := by
  unfold GameRoom.playCardCore
  split
  · intro hsucc
    simp [perr] at hsucc
  · dsimp only
    split
    · intro _ hns
      simp at hns
    · rename_i s2 heq
      intro _ _ hflag
      have h4 := congrArg Prod.snd heq
      dsimp only at h4
      have h2 : s2.players.length = t.players.length := by
        rw [← h4, handleCardEffect_players_length]
        dsimp only
        rw [List.length_set]
      exact checkUnoAfterPlay_post s2 pi (by rw [h2]; exact hpi) hflag

theorem unoPlay_flag (s : GameRoom) (pid idx : Nat) (c : Option CColor) (js : List Nat)
    (pi : Nat) (hidx : findIndex (fun p => p.id == pid) s.players = some pi) :
    (s.playCard pid idx c js).1.success = true →
    (s.playCard pid idx c js).1.needSwapTarget = false →
    ((s.playCard pid idx c js).2.players.getD pi default).calledUno = true →
    ((s.playCard pid idx c js).2.players.getD pi default).hand.length = 1 := by
  have hpi : pi < s.players.length := (findIndex_id s.players pid pi hidx).1
  unfold GameRoom.playCard
  dsimp only
  simp only [hidx]
  rcases hget : (s.players.getD pi default).hand.get? idx with _ | card
  · simp only [hget]
    intro hsucc
    simp [perr] at hsucc
  · simp only [hget]
    by_cases hne : pi ≠ s.currentPlayer
    · rw [if_pos hne]
      by_cases hj : (s.settings.allowJumpIn &&
          GameRoom.isJumpIn { s with lastSwapEvent := none } card) = true
      · rw [if_pos hj]
        exact playCardCore_actor_flag _ pi idx card c js hpi
      · rw [if_neg hj]
        intro hsucc
        simp [perr] at hsucc
    · rw [if_neg hne]
      exact playCardCore_actor_flag _ pi idx card c js hpi

theorem unoDraw_flag (s : GameRoom) (pid : Nat) (js : List Nat) (pi : Nat)
    (hidx : findIndex (fun p => p.id == pid) s.players = some pi) :
    (s.drawCard pid js).1.success = true →
    ((s.drawCard pid js).2.players.getD pi default).calledUno = true →
    ((s.drawCard pid js).2.players.getD pi default).hand.length ≤ 1 := by
  have hpi : pi < s.players.length := (findIndex_id s.players pid pi hidx).1
  unfold GameRoom.drawCard
  simp only [hidx]
  by_cases hne : pi ≠ s.currentPlayer
  · rw [if_pos hne]
    intro hsucc
    simp at hsucc
  · rw [if_neg hne]
    by_cases hd : s.hasDrawnThisTurn = true
    · rw [if_pos hd]
      intro hsucc
      simp at hsucc
    · have hd' : s.hasDrawnThisTurn = false := by
        revert hd
        cases s.hasDrawnThisTurn <;> simp
      rw [if_neg (by simp [hd'])]
      by_cases hst : 0 < s.stackedDrawCount
      · rw [if_pos hst]
        dsimp only
        have hc := ctrl_parts (drawCards_ctrl s.stackedDrawCount s pi js)
        have hpil : pi < (s.drawCards pi s.stackedDrawCount js).players.length := by
          rw [hc.2.2.2.1]
          exact hpi
        rw [advanceTurn_players]
        dsimp only
        rw [getD_set_self (s.drawCards pi s.stackedDrawCount js).players pi _ hpil]
        intro _ hflag
        simp at hflag
      · rw [if_neg hst]
        dsimp only
        have hc := ctrl_parts (drawCards_ctrl 1 { s with hasDrawnThisTurn := true } pi js)
        have hpil :
            pi < (GameRoom.drawCards { s with hasDrawnThisTurn := true } pi 1 js).players.length := by
          rw [hc.2.2.2.1]
          exact hpi
        simp only [apply_ite GameRoom.players]
        try dsimp only
        simp only [apply_ite GameRoom.players, ite_self, advanceTurn_players]
        split
        · rw [getD_set_self
            (GameRoom.drawCards { s with hasDrawnThisTurn := true } pi 1 js).players
            pi _ hpil]
          intro _ hflag
          simp at hflag
        · intro _ _
          omega

set_option maxRecDepth 100000 in
/-- C4 counterexample: from a freshly dealt two-player room (shuffle
`jsTrace`), `P0` plays a red 1, `P1` plays down to one card and declares,
then `P0` plays a red `+2`: the penalty draw raises `P1`'s hand to three
cards but `P1`'s declare flag stays `true` — the flag invariant fails in a
reachable state because `handleCardEffect`'s penalty draws never clear the
victim's flag (`checkUnoAfterPlay` only re-validates the actor). -/
theorem unoFlag_cex :
    initRoom [(0, "P0"), (1, "P1")] settsPlain jsTrace 2 = some roomU0 ∧
    Reachable roomU0 roomU4 ∧
    (roomU4.players.getD 1 default).calledUno = true ∧
    (roomU4.players.getD 1 default).hand.length = 3 := by
  refine ⟨rfl, ?_, rfl, rfl⟩
  exact Relation.ReflTransGen.head (Step.play roomU0 0 0 none [])
    (Relation.ReflTransGen.head (Step.play roomU1 1 0 none [])
      (Relation.ReflTransGen.head (Step.uno roomU2 1)
        (Relation.ReflTransGen.head (Step.play roomU3 0 0 none [])
          Relation.ReflTransGen.refl)))

/-- C4 (amended): the declare-flag/hand-size relation is maintained only for
the *actor* of each operation: after a successful non-swap `playCard`, the
actor's flag is `true` only if the actor's hand has exactly one card
(`checkUnoAfterPlay` re-validates the actor), and after a successful
`drawCard` the actor's flag is `true` only if the actor's hand has at most
one card.  No operation clears the flag of a *non-acting* participant whose
hand size changes (penalty draws, swaps), so the claim's every-participant
invariant fails (theorem `unoFlag_cex`). -/
theorem unoFlag_amended (s u : GameRoom) (pid idx upid : Nat) (c : Option CColor)
    (js ujs : List Nat) (pi qi : Nat)
    (hidx : findIndex (fun p => p.id == pid) s.players = some pi)
    (huidx : findIndex (fun p => p.id == upid) u.players = some qi) :
    ((s.playCard pid idx c js).1.success = true →
     (s.playCard pid idx c js).1.needSwapTarget = false →
     ((s.playCard pid idx c js).2.players.getD pi default).calledUno = true →
     ((s.playCard pid idx c js).2.players.getD pi default).hand.length = 1) ∧
    ((u.drawCard upid ujs).1.success = true →
     ((u.drawCard upid ujs).2.players.getD qi default).calledUno = true →
     ((u.drawCard upid ujs).2.players.getD qi default).hand.length ≤ 1) :=
  ⟨unoPlay_flag s pid idx c js pi hidx, unoDraw_flag u upid ujs qi huidx⟩

theorem unoFlag_amended_witness :
    findIndex (fun p => p.id == 0) roomWitPlay.players = some 0 ∧
    findIndex (fun p => p.id == 0) roomWitDraw.players = some 0 ∧
    (roomWitPlay.playCard 0 0 none []).1.success = true ∧
    (roomWitPlay.playCard 0 0 none []).1.needSwapTarget = false ∧
    ((roomWitPlay.playCard 0 0 none []).2.players.getD 0 default).calledUno = true ∧
    ((roomWitPlay.playCard 0 0 none []).2.players.getD 0 default).hand.length = 1 ∧
    (roomWitDraw.drawCard 0 []).1.success = true ∧
    ((roomWitDraw.drawCard 0 []).2.players.getD 0 default).calledUno = true ∧
    ((roomWitDraw.drawCard 0 []).2.players.getD 0 default).hand.length ≤ 1 :=
  ⟨by decide, by decide, by decide, by decide, by decide,
   (unoFlag_amended roomWitPlay roomWitDraw 0 0 0 none [] [] 0 0
     (by decide) (by decide)).1 (by decide) (by decide) (by decide),
   by decide, by decide,
   (unoFlag_amended roomWitPlay roomWitDraw 0 0 0 none [] [] 0 0
     (by decide) (by decide)).2 (by decide) (by decide)⟩

/- ── Presence: association-list lemmas ───────────────────────────────── -/

theorem mapGet_mapSet_self {β : Type} (k : Nat) (v : β) :
    ∀ l : List (Nat × β), mapGet k (mapSet k v l) = some v := by
  intro l
  induction l with
  | nil => simp [mapGet, mapSet]
  | cons a rest ih =>
    rcases a with ⟨k1, v1⟩
    by_cases h : k1 = k
    · simp [mapGet, mapSet, h]
    · simp [mapGet, mapSet, h, ih]

theorem mapGet_mapSet_ne {β : Type} (k j : Nat) (v : β) (hne : k ≠ j) :
    ∀ l : List (Nat × β), mapGet j (mapSet k v l) = mapGet j l := by
  intro l
  induction l with
  | nil => simp [mapGet, mapSet, hne]
  | cons a rest ih =>
    rcases a with ⟨k1, v1⟩
    by_cases h : k1 = k
    · subst h
      simp [mapGet, mapSet, hne]
    · simp [mapGet, mapSet, h, ih]

theorem mapGet_eq_none_of_not_mem {β : Type} (k : Nat) :
    ∀ l : List (Nat × β), k ∉ l.map Prod.fst → mapGet k l = none := by
  intro l
  induction l with
  | nil => intro _; rfl
  | cons a rest ih =>
    rcases a with ⟨k1, v1⟩
    intro hk
    simp only [List.map_cons, List.mem_cons] at hk
    push_neg at hk
    simp only [mapGet]
    rw [if_neg (fun h : k1 = k => hk.1 h.symm)]
    exact ih hk.2

theorem mapGet_mapDelete_self {β : Type} (k : Nat) :
    ∀ l : List (Nat × β), (l.map Prod.fst).Nodup → mapGet k (mapDelete k l) = none := by
  intro l
  induction l with
  | nil => intro _; rfl
  | cons a rest ih =>
    rcases a with ⟨k1, v1⟩
    intro hnd
    simp only [List.map_cons, List.nodup_cons] at hnd
    by_cases h : k1 = k
    · subst h
      simp [mapDelete, mapGet_eq_none_of_not_mem k1 rest hnd.1]
    · simp [mapDelete, mapGet, h, ih hnd.2]

theorem mapGet_mapDelete_ne {β : Type} (k j : Nat) (hne : k ≠ j) :
    ∀ l : List (Nat × β), mapGet j (mapDelete k l) = mapGet j l := by
  intro l
  induction l with
  | nil => rfl
  | cons a rest ih =>
    rcases a with ⟨k1, v1⟩
    by_cases h : k1 = k
    · subst h
      simp [mapDelete, mapGet, fun hh : k1 = j => hne hh]
    · simp [mapDelete, mapGet, h, ih]

theorem mem_keys_mapSet {β : Type} (k j : Nat) (v : β) :
    ∀ l : List (Nat × β), j ∈ (mapSet k v l).map Prod.fst →
      j ∈ l.map Prod.fst ∨ j = k := by
  intro l
  induction l with
  | nil => simp [mapSet]
  | cons a rest ih =>
    rcases a with ⟨k1, v1⟩
    by_cases h : k1 = k
    · subst h
      simp only [mapSet, List.map_cons, List.mem_cons]
      simp only [if_true]
      simp only [List.map_cons, List.mem_cons]
      tauto
    · simp only [mapSet, List.map_cons, List.mem_cons]
      rw [if_neg h]
      simp only [List.map_cons, List.mem_cons]
      intro hm
      rcases hm with h1 | h1
      · tauto
      · rcases ih h1 with h2 | h2 <;> tauto

theorem nodup_mapSet {β : Type} (k : Nat) (v : β) :
    ∀ l : List (Nat × β), (l.map Prod.fst).Nodup →
      ((mapSet k v l).map Prod.fst).Nodup := by
  intro l
  induction l with
  | nil => intro _; simp [mapSet]
  | cons a rest ih =>
    rcases a with ⟨k1, v1⟩
    intro hnd
    simp only [List.map_cons, List.nodup_cons] at hnd
    by_cases h : k1 = k
    · subst h
      rw [show mapSet k1 v ((k1, v1) :: rest) = (k1, v) :: rest from by
        simp [mapSet]]
      simp only [List.map_cons, List.nodup_cons]
      exact hnd
    · rw [show mapSet k v ((k1, v1) :: rest) = (k1, v1) :: mapSet k v rest from by
        simp [mapSet, h]]
      simp only [List.map_cons, List.nodup_cons]
      refine ⟨fun hm => ?_, ih hnd.2⟩
      rcases mem_keys_mapSet k k1 v rest hm with h2 | h2
      · exact hnd.1 h2
      · exact h h2

theorem mem_keys_mapDelete {β : Type} (k j : Nat) :
    ∀ l : List (Nat × β), j ∈ (mapDelete k l).map Prod.fst → j ∈ l.map Prod.fst := by
  intro l
  induction l with
  | nil => simp [mapDelete]
  | cons a rest ih =>
    rcases a with ⟨k1, v1⟩
    by_cases h : k1 = k
    · subst h
      rw [show mapDelete k1 ((k1, v1) :: rest) = rest from by simp [mapDelete]]
      simp only [List.map_cons, List.mem_cons]
      tauto
    · rw [show mapDelete k ((k1, v1) :: rest) = (k1, v1) :: mapDelete k rest from by
        simp [mapDelete, h]]
      simp only [List.map_cons, List.mem_cons]
      intro hm
      rcases hm with h1 | h1
      · tauto
      · exact Or.inr (ih h1)

theorem nodup_mapDelete {β : Type} (k : Nat) :
    ∀ l : List (Nat × β), (l.map Prod.fst).Nodup →
      ((mapDelete k l).map Prod.fst).Nodup := by
  intro l
  induction l with
  | nil => intro _; simp [mapDelete]
  | cons a rest ih =>
    rcases a with ⟨k1, v1⟩
    intro hnd
    simp only [List.map_cons, List.nodup_cons] at hnd
    by_cases h : k1 = k
    · subst h
      rw [show mapDelete k1 ((k1, v1) :: rest) = rest from by simp [mapDelete]]
      exact hnd.2
    · rw [show mapDelete k ((k1, v1) :: rest) = (k1, v1) :: mapDelete k rest from by
        simp [mapDelete, h]]
      simp only [List.map_cons, List.nodup_cons]
      exact ⟨fun hm => hnd.1 (mem_keys_mapDelete k k1 rest hm), ih hnd.2⟩

/-- A heartbeat from a `DISCONNECTED` participant, fully evaluated: the
grace timer is cancelled and the state restored to `READY` when the ready
flag is set, else to `LOBBY` — the `IN_GAME` comparison inside
`onPlayerReconnect` reads the already-overwritten state and can never fire. -/
theorem receiveHeartbeat_disc (m : PM) (id : Nat) (p : PPlayer)
    (hp : mapGet id m.players = some p) (hd : p.state = PState.disconnected) :
    m.receiveHeartbeat id =
      { m with
        lastHeartbeat := mapSet id m.now m.lastHeartbeat,
        disconnectTimers := m.disconnectTimers.erase id,
        players := mapSet id
          { p with lastSeen := m.now,
                   state := if p.ready then PState.ready else PState.lobby,
                   reconnectedAt := some m.now }
          (mapSet id { p with lastSeen := m.now } m.players) } := by
  unfold PM.receiveHeartbeat
  simp only [hp]
  rw [if_pos hd]
  unfold PM.onPlayerReconnect
  dsimp only
  rw [mapGet_mapSet_self]
  unfold PM.clearDisconnectTimer
  dsimp only
  rw [hd]
  rfl

theorem goodP_updatePlayerState (m : PM) (id j : Nat) (st : PState)
    (hst1 : st ≠ PState.disconnected) (hst2 : st ≠ PState.timeout)
    (hg : GoodP id m) : GoodP id (m.updatePlayerState j st) := by
  obtain ⟨hnd0, hds, hto, htm⟩ := hg
  unfold PM.updatePlayerState
  rcases hm : mapGet j m.players with _ | p
  · simp only [hm]
    exact ⟨hnd0, hds, hto, htm⟩
  · simp only [hm]
    refine ⟨nodup_mapSet j _ m.players hnd0, ?_, ?_, htm⟩
    · unfold PM.stateOf PM.getPlayer
      dsimp only
      by_cases hj : j = id
      · subst hj
        rw [mapGet_mapSet_self]
        simp [hst1]
      · rw [mapGet_mapSet_ne j id _ hj]
        exact hds
    · unfold PM.stateOf PM.getPlayer
      dsimp only
      by_cases hj : j = id
      · subst hj
        rw [mapGet_mapSet_self]
        simp [hst2]
      · rw [mapGet_mapSet_ne j id _ hj]
        exact hto

theorem sweepOne_cases (m : PM) (e : Nat × Nat) :
    sweepOne m e = m ∨ sweepOne m e = m.onPlayerDisconnect e.1 := by
  unfold sweepOne
  rcases hm : mapGet e.1 m.players with _ | p
  · simp only [hm]
    exact Or.inl trivial
  · simp only [hm]
    split
    · split
      · exact Or.inr rfl
      · exact Or.inl rfl
    · exact Or.inl rfl

theorem disc_pres (m : PM) (id j : Nat)
    (h : GoodP id m ∨ m.stateOf id = some PState.disconnected) :
    GoodP id (m.onPlayerDisconnect j) ∨
      (m.onPlayerDisconnect j).stateOf id = some PState.disconnected := by
  unfold PM.onPlayerDisconnect
  rcases hm : mapGet j m.players with _ | p
  · simp only [hm]
    exact h
  · simp only [hm]
    try dsimp only
    unfold PM.startDisconnectTimer PM.clearDisconnectTimer
    dsimp only
    by_cases hj : j = id
    · subst hj
      right
      unfold PM.stateOf PM.getPlayer
      dsimp only
      rw [mapGet_mapSet_self]
      rfl
    · rcases h with hg | hdisc
      · left
        obtain ⟨hnd0, hds, hto, htm⟩ := hg
        refine ⟨nodup_mapSet j _ m.players hnd0, ?_, ?_, ?_⟩
        · unfold PM.stateOf PM.getPlayer
          dsimp only
          rw [mapGet_mapSet_ne j id _ hj]
          exact hds
        · unfold PM.stateOf PM.getPlayer
          dsimp only
          rw [mapGet_mapSet_ne j id _ hj]
          exact hto
        · dsimp only
          intro hmem
          rcases List.mem_append.1 hmem with h1 | h1
          · exact htm (List.mem_of_mem_erase h1)
          · simp at h1
            exact hj h1.symm
      · right
        unfold PM.stateOf PM.getPlayer at hdisc ⊢
        dsimp only
        rw [mapGet_mapSet_ne j id _ hj]
        exact hdisc

theorem sweep_pres (id : Nat) : ∀ (entries : List (Nat × Nat)) (m : PM),
    GoodP id m ∨ m.stateOf id = some PState.disconnected →
    (GoodP id (List.foldl sweepOne m entries) ∨
      (List.foldl sweepOne m entries).stateOf id = some PState.disconnected)
  | [], _, h => h
  | e :: es, m, h => by
    rw [List.foldl_cons]
    refine sweep_pres id es (sweepOne m e) ?_
    rcases sweepOne_cases m e with hc | hc
    · rw [hc]
      exact h
    · rw [hc]
      exact disc_pres m id e.1 h

theorem goodP_step (id : Nat) (l : PLabel) (m : PM) (hg : GoodP id m)
    (hpost : (pstep l m).stateOf id ≠ some PState.disconnected) :
    GoodP id (pstep l m) := by
  obtain ⟨hnd0, hds, hto, htm⟩ := hg
  cases l with
  | add j n =>
    dsimp only [pstep]
    unfold PM.addPlayer
    dsimp only
    refine ⟨nodup_mapSet j _ m.players hnd0, ?_, ?_, htm⟩
    · unfold PM.stateOf PM.getPlayer
      dsimp only
      by_cases hj : j = id
      · subst hj
        rw [mapGet_mapSet_self]
        simp
      · rw [mapGet_mapSet_ne j id _ hj]
        exact hds
    · unfold PM.stateOf PM.getPlayer
      dsimp only
      by_cases hj : j = id
      · subst hj
        rw [mapGet_mapSet_self]
        simp
      · rw [mapGet_mapSet_ne j id _ hj]
        exact hto
  | remove j =>
    dsimp only [pstep]
    unfold PM.removePlayer
    rcases hm : mapGet j m.players with _ | p
    · simp only [hm]
      exact ⟨hnd0, hds, hto, htm⟩
    · simp only [hm]
      unfold PM.clearDisconnectTimer
      refine ⟨nodup_mapDelete j _ hnd0, ?_, ?_, ?_⟩
      · unfold PM.stateOf PM.getPlayer
        dsimp only
        by_cases hj : j = id
        · subst hj
          rw [mapGet_mapDelete_self j m.players hnd0]
          simp
        · rw [mapGet_mapDelete_ne j id hj]
          exact hds
      · unfold PM.stateOf PM.getPlayer
        dsimp only
        by_cases hj : j = id
        · subst hj
          rw [mapGet_mapDelete_self j m.players hnd0]
          simp
        · rw [mapGet_mapDelete_ne j id hj]
          exact hto
      · dsimp only
        intro hmem
        exact htm (List.mem_of_mem_erase hmem)
  | setReady j b =>
    dsimp only [pstep]
    unfold PM.setPlayerReady
    rcases hm : mapGet j m.players with _ | p
    · simp only [hm]
      exact ⟨hnd0, hds, hto, htm⟩
    · simp only [hm]
      have hg1 : GoodP id { m with players := mapSet j { p with ready := b } m.players } := by
        refine ⟨nodup_mapSet j _ m.players hnd0, ?_, ?_, htm⟩
        · unfold PM.stateOf PM.getPlayer
          dsimp only
          by_cases hj : j = id
          · subst hj
            rw [mapGet_mapSet_self]
            intro hc
            apply hds
            unfold PM.stateOf PM.getPlayer
            rw [hm]
            simpa using hc
          · rw [mapGet_mapSet_ne j id _ hj]
            exact hds
        · unfold PM.stateOf PM.getPlayer
          dsimp only
          by_cases hj : j = id
          · subst hj
            rw [mapGet_mapSet_self]
            intro hc
            apply hto
            unfold PM.stateOf PM.getPlayer
            rw [hm]
            simpa using hc
          · rw [mapGet_mapSet_ne j id _ hj]
            exact hto
      split
      · exact goodP_updatePlayerState _ id j PState.ready (by decide) (by decide) hg1
      · exact goodP_updatePlayerState _ id j PState.lobby (by decide) (by decide) hg1
  | heartbeat j =>
    dsimp only [pstep]
    unfold PM.receiveHeartbeat
    rcases hm : mapGet j m.players with _ | p
    · simp only [hm]
      exact ⟨hnd0, hds, hto, htm⟩
    · simp only [hm]
      have hg1 : GoodP id { m with
          lastHeartbeat := mapSet j m.now m.lastHeartbeat,
          players := mapSet j { p with lastSeen := m.now } m.players } := by
        refine ⟨nodup_mapSet j _ m.players hnd0, ?_, ?_, htm⟩
        · unfold PM.stateOf PM.getPlayer
          dsimp only
          by_cases hj : j = id
          · subst hj
            rw [mapGet_mapSet_self]
            intro hc
            apply hds
            unfold PM.stateOf PM.getPlayer
            rw [hm]
            simpa using hc
          · rw [mapGet_mapSet_ne j id _ hj]
            exact hds
        · unfold PM.stateOf PM.getPlayer
          dsimp only
          by_cases hj : j = id
          · subst hj
            rw [mapGet_mapSet_self]
            intro hc
            apply hto
            unfold PM.stateOf PM.getPlayer
            rw [hm]
            simpa using hc
          · rw [mapGet_mapSet_ne j id _ hj]
            exact hto
      by_cases hj : j = id
      · subst hj
        have hps : p.state ≠ PState.disconnected := by
          intro hc
          apply hds
          unfold PM.stateOf PM.getPlayer
          rw [hm]
          simp [hc]
        rw [if_neg hps]
        exact hg1
      · split
        · -- reconnect of a different participant
          obtain ⟨h1nd, h1ds, h1to, h1tm⟩ := hg1
          unfold PM.onPlayerReconnect
          rcases hm2 : mapGet j (mapSet j { p with lastSeen := m.now } m.players) with _ | q
          · simp only [hm2]
            exact ⟨h1nd, h1ds, h1to, h1tm⟩
          · simp only [hm2]
            unfold PM.clearDisconnectTimer
            dsimp only
            refine ⟨nodup_mapSet j _ _ h1nd, ?_, ?_, ?_⟩
            · unfold PM.stateOf PM.getPlayer
              dsimp only
              rw [mapGet_mapSet_ne j id _ hj]
              exact h1ds
            · unfold PM.stateOf PM.getPlayer
              dsimp only
              rw [mapGet_mapSet_ne j id _ hj]
              exact h1to
            · dsimp only
              intro hmem
              exact h1tm (List.mem_of_mem_erase hmem)
        · exact hg1
  | disconnect j =>
    have hres := disc_pres m id j (Or.inl ⟨hnd0, hds, hto, htm⟩)
    rcases hres with hgood | hbad
    · exact hgood
    · exact absurd hbad hpost
  | sweep =>
    have hres := sweep_pres id m.lastHeartbeat m (Or.inl ⟨hnd0, hds, hto, htm⟩)
    rcases hres with hgood | hbad
    · exact hgood
    · exact absurd hbad hpost
  | fire j =>
    dsimp only [pstep]
    unfold PM.fireDisconnectTimer
    by_cases hcont : m.disconnectTimers.contains j = true
    · rw [if_pos hcont]
      have hj : j ≠ id := by
        intro hc
        subst hc
        exact htm (by simpa using hcont)
      unfold PM.onPlayerTimeout
      rcases hm : mapGet j ({ m with
          disconnectTimers := m.disconnectTimers.erase j } : PM).players with _ | p
      · simp only [hm]
        refine ⟨hnd0, hds, hto, ?_⟩
        intro hmem
        exact htm (List.mem_of_mem_erase hmem)
      · simp only [hm]
        refine ⟨nodup_mapSet j _ m.players hnd0, ?_, ?_, ?_⟩
        · unfold PM.stateOf PM.getPlayer
          dsimp only
          rw [mapGet_mapSet_ne j id _ hj]
          exact hds
        · unfold PM.stateOf PM.getPlayer
          dsimp only
          rw [mapGet_mapSet_ne j id _ hj]
          exact hto
        · dsimp only
          intro hmem
          exact htm (List.mem_of_mem_erase hmem)
    · rw [if_neg hcont]
      exact ⟨hnd0, hds, hto, htm⟩
  | startGame j =>
    exact goodP_updatePlayerState m id j PState.inGame (by decide) (by decide)
      ⟨hnd0, hds, hto, htm⟩
  | tick d =>
    exact ⟨hnd0, hds, hto, htm⟩

theorem goodP_run (id : Nat) : ∀ (ls : List PLabel) (m : PM), GoodP id m →
    noDiscAlong id m ls = true → GoodP id (runLabels ls m)
  | [], m, h, _ => h
  | l :: ls, m, h, hnd => by
    unfold noDiscAlong at hnd
    rw [Bool.and_eq_true] at hnd
    have h1 : (pstep l m).stateOf id ≠ some PState.disconnected := by
      simpa [bne_iff_ne] using hnd.1
    exact goodP_run id ls (pstep l m) (goodP_step id l m h h1) hnd.2

/-- C2: a heartbeat from a `DISCONNECTED` participant cancels the grace
timer but restores the state to `READY` when the ready flag is set and to
`LOBBY` otherwise — *never* to `IN_GAME`: `onPlayerReconnect` compares
`player.state === IN_GAME` only after `onPlayerDisconnect` has overwritten
that very field with `DISCONNECTED`, so a mid-match participant is dumped to
the lobby instead of being restored, contradicting the spec and the
project's own `PLAYER_PRESENCE_SYSTEM.md`. -/
theorem reconnect_restore (m : PM) (id : Nat) (p : PPlayer)
    (hp : mapGet id m.players = some p) (hd : p.state = PState.disconnected) :
    (m.receiveHeartbeat id).stateOf id =
      some (if p.ready then PState.ready else PState.lobby) ∧
    (m.receiveHeartbeat id).disconnectTimers = m.disconnectTimers.erase id := by
  rw [receiveHeartbeat_disc m id p hp hd]
  constructor
  · unfold PM.stateOf PM.getPlayer
    dsimp only
    rw [mapGet_mapSet_self]
    rfl
  · rfl

theorem reconnect_restore_witness :
    mapGet 5 pmC9.players = some pp5 ∧ pp5.state = PState.disconnected ∧
    (pmC9.receiveHeartbeat 5).stateOf 5 =
      some (if pp5.ready then PState.ready else PState.lobby) ∧
    (pmC9.receiveHeartbeat 5).disconnectTimers = pmC9.disconnectTimers.erase 5 :=
  ⟨by decide, by decide,
   (reconnect_restore pmC9 5 pp5 (by decide) (by decide)).1,
   (reconnect_restore pmC9 5 pp5 (by decide) (by decide)).2⟩

/-- C9: once a `DISCONNECTED` participant's heartbeat is processed, no later
event sequence that never again observes them `DISCONNECTED` can put them in
`TIMEOUT` — in particular the expiry of the original grace timer is dead,
because `onPlayerReconnect` ran `clearDisconnectTimer` and a cancelled
single-shot timer never fires. -/
theorem noTimeout_after_reconnect (m0 : PM) (id : Nat) (p : PPlayer) (ls : List PLabel)
    (hnd0 : (m0.players.map Prod.fst).Nodup)
    (htd : m0.disconnectTimers.Nodup)
    (hp : mapGet id m0.players = some p)
    (hdisc : p.state = PState.disconnected)
    (hnd : noDiscAlong id (m0.receiveHeartbeat id) ls = true) :
    (runLabels ls (m0.receiveHeartbeat id)).stateOf id ≠ some PState.timeout := by
  have hchar := receiveHeartbeat_disc m0 id p hp hdisc
  have hg : GoodP id (m0.receiveHeartbeat id) := by
    rw [hchar]
    refine ⟨?_, ?_, ?_, ?_⟩
    · exact nodup_mapSet id _ _ (nodup_mapSet id _ _ hnd0)
    · unfold PM.stateOf PM.getPlayer
      dsimp only
      rw [mapGet_mapSet_self]
      dsimp only [Option.map]
      split <;> simp
    · unfold PM.stateOf PM.getPlayer
      dsimp only
      rw [mapGet_mapSet_self]
      dsimp only [Option.map]
      split <;> simp
    · dsimp only
      intro hmem
      exact ((List.Nodup.mem_erase_iff htd).1 hmem).1 rfl
  exact (goodP_run id ls (m0.receiveHeartbeat id) hg hnd).2.2.1

theorem noTimeout_after_reconnect_witness :
    ((pmC9.players.map Prod.fst).Nodup ∧ pmC9.disconnectTimers.Nodup ∧
      mapGet 5 pmC9.players = some pp5 ∧ pp5.state = PState.disconnected ∧
      noDiscAlong 5 (pmC9.receiveHeartbeat 5) ls9 = true) ∧
    (runLabels ls9 (pmC9.receiveHeartbeat 5)).stateOf 5 ≠ some PState.timeout :=
  ⟨⟨by decide, by decide, by decide, by decide, by decide⟩,
   noTimeout_after_reconnect pmC9 5 pp5 ls9 (by decide) (by decide) (by decide)
     (by decide) (by decide)⟩
